import Mathlib

/-!
# RevoBoot: CPU calibration, link-speed probing and topology resolution

Shallow embedding of `i386/libsaio/cpu/Intel/dynamic_data.h`.

Conventions of the embedding.

* The target is i386: `unsigned long` and `int` are 32 bits wide, `uint64_t` is
  64 bits wide, `uint8_t` is 8 bits wide.  Machine integers are natural numbers
  and every operation whose C type can wrap carries its explicit `% 2 ^ w`.
* The hardware the code talks to (identification registers, model-specific
  registers, configuration space, the interval timer and the time-stamp
  counter) is a record of read-only oracles, `Hardware`.  Each read primitive
  truncates the oracle value to the width of the primitive's C return type.
* The global `gPlatform.CPU` is an explicit record, `CPUInfo`, threaded through
  `initCPUStruct`.
* The two string reads of `initCPUStruct` that no terminator bounds (the search
  at `reg`, the scan of `str`) read the memory that follows the bytes written;
  that memory is part of `Hardware`, next to the registers.
-/

namespace RevoBoot

/-! ## Simulated hardware -/

/-- Register file written by one execution of the `cpuid` instruction, in the
order `eax`, `ebx`, `ecx`, `edx` used to index `gPlatform.CPU.ID[leaf][...]`. -/
structure Regs where
  eax : Nat
  ebx : Nat
  ecx : Nat
  edx : Nat
deriving DecidableEq

/-- Read-only oracles standing for the hardware primitives used by the file:
`cpuid` (by leaf, and by leaf and sub-leaf), `rdmsr64` (by register index),
`pciConfigRead16` and `pciConfigRead32` (by address and offset), and, for
calibration run `i` of `getTSCFrequency`, the value of `poll_PIT2_gate()` and of
the two `rdtsc64()` calls around it.

The last two fields are memory.  `initCPUStruct` searches `uint32_t reg[4]`
(line 222) and scans `char str[128]` (lines 233 to 241) as C strings without
storing a terminator, so both reads run past the bytes the function wrote when
these hold no zero byte.  `afterReg` lists the bytes that lie after `reg` in
memory when line 222 runs; `afterStr` lists the bytes of `str` from `str[48]`
on, and of the memory after `str`, when line 233 runs.  Each list is given as far
as the read can go: a zero byte follows its last byte.  A read that meets no
zero byte before the end of memory does not return and has no value here. -/
structure Hardware where
  cpuid : Nat → Regs
  cpuid2 : Nat → Nat → Regs
  msr : Nat → Nat
  pci16 : Nat → Nat → Nat
  pci32 : Nat → Nat → Nat
  pollCount : Nat → Nat
  tscStart : Nat → Nat
  tscEnd : Nat → Nat
  afterReg : List Nat
  afterStr : List Nat

/-! ## getTSCFrequency -/

/-- The constant `CALIBRATE_TIME_MSEC`. -/
def CALIBRATE_TIME_MSEC : Nat := 30

/-- Modelled from the spec: the primitive `rdtsc64` of `cpu/proc_reg.h`, which is
not among the sources, reads the 64-bit time-stamp counter; this is its first
call in calibration run `i`. -/
def rdtsc64Start (hw : Hardware) (i : Nat) : Nat := hw.tscStart i % 2 ^ 64

/-- Modelled from the spec: the primitive `poll_PIT2_gate`, which is not among
the sources, returns the number of polls until the timer expired, an
`unsigned long`; this is its value in calibration run `i`. -/
def poll_PIT2_gate (hw : Hardware) (i : Nat) : Nat := hw.pollCount i % 2 ^ 32

/-- Modelled from the spec: the second call of `rdtsc64` in calibration run `i`. -/
def rdtsc64End (hw : Hardware) (i : Nat) : Nat := hw.tscEnd i % 2 ^ 64

/-- Unsigned 64-bit subtraction `a - b`. -/
def sub64 (a b : Nat) : Nat := (a % 2 ^ 64 + 2 ^ 64 - b % 2 ^ 64) % 2 ^ 64

/-- The expression `tscEnd - tscStart` of calibration run `i`. -/
def tscRunDelta (hw : Hardware) (i : Nat) : Nat :=
  sub64 (rdtsc64End hw i) (rdtsc64Start hw i)

/-- One iteration of the `for (i = 0; i < 10; ++i)` loop of `getTSCFrequency`:
maps the value of `tscDelta` before run `i` to its value after it. -/
def calibrationRun (hw : Hardware) (tscDelta : Nat) (i : Nat) : Nat :=
  let tscStart := rdtsc64Start hw i
  let pollCount := poll_PIT2_gate hw i
  let tscEnd := rdtsc64End hw i
  if pollCount ≤ 1 then tscDelta
  else if sub64 tscEnd tscStart ≤ CALIBRATE_TIME_MSEC then tscDelta
  else if sub64 tscEnd tscStart < tscDelta then sub64 tscEnd tscStart
  else tscDelta

/-- The value of `tscDelta` after the first `n` runs of the loop. -/
def calibrationLoop (hw : Hardware) (n : Nat) : Nat :=
  (List.range n).foldl (calibrationRun hw) 0xffffffffffffffff

/-- The function `getTSCFrequency`.  Programming, enabling and disabling the
timer channel changes no value the function computes with: the values it reads
are those of the oracles. -/
def getTSCFrequency (hw : Hardware) : Nat :=
  let tscDelta := calibrationLoop hw 10
  if tscDelta > 2 ^ 32 then 0
  else (tscDelta * 1000) % 2 ^ 64 / 30

/-- Run `i` is kept by the loop: neither `continue` is taken. -/
def validRun (hw : Hardware) (i : Nat) : Prop :=
  1 < poll_PIT2_gate hw i ∧ CALIBRATE_TIME_MSEC < tscRunDelta hw i

instance (hw : Hardware) (i : Nat) : Decidable (validRun hw i) := by
  unfold validRun; infer_instance

/-- The value `d` is the least delta among the kept runs of the ten. -/
def IsMinValidDelta (hw : Hardware) (d : Nat) : Prop :=
  (∃ i, i < 10 ∧ validRun hw i ∧ tscRunDelta hw i = d) ∧
    ∀ j, j < 10 → validRun hw j → d ≤ tscRunDelta hw j

instance (hw : Hardware) (d : Nat) : Decidable (IsMinValidDelta hw d) := by
  unfold IsMinValidDelta; infer_instance

/-- A timer that gives the same sample in every run.  Every register reads 0,
and the memory is clear: a zero byte lies right after `reg` and at `str[48]`. -/
def constTimer (poll tscStart tscEnd : Nat) : Hardware where
  cpuid := fun _ => ⟨0, 0, 0, 0⟩
  cpuid2 := fun _ _ => ⟨0, 0, 0, 0⟩
  msr := fun _ => 0
  pci16 := fun _ _ => 0
  pci32 := fun _ _ => 0
  pollCount := fun _ => poll
  tscStart := fun _ => tscStart
  tscEnd := fun _ => tscEnd
  afterReg := []
  afterStr := []

/-- A timer whose run `i` polls `i` times, starts just below the 64-bit wrap and
ends at `1000 + 100 * i`: runs 0 and 1 are discarded, the least kept delta is
that of run 2. -/
def rampTimer : Hardware :=
  { constTimer 0 0 0 with
    pollCount := fun i => i
    tscStart := fun _ => 2 ^ 64 - 5
    tscEnd := fun i => 1000 + 100 * i }

/-- The timer `rampTimer` with other counters and poll counts in its two
discarded runs. -/
def rampTimerAlt : Hardware :=
  { constTimer 0 0 0 with
    pollCount := fun i => if i < 2 then 1 - i else i
    tscStart := fun i => if i < 2 then 77 else 2 ^ 64 - 5
    tscEnd := fun i => if i < 2 then 5000000 * i else 1000 + 100 * i }

/-! ## Bytes and C strings -/

/-- The bytes of a string literal of the source, without the terminator. -/
def lit (s : String) : List Nat := s.toList.map Char.toNat

/-- The C string that starts a region of memory: the bytes before the first zero
byte.  The region is listed as far as a read can go, so an array in which the
code stores no terminator is listed with the memory that follows it
(`Hardware.afterReg`, `Hardware.afterStr`); a zero byte follows the last byte of
the region. -/
def cstring (mem : List Nat) : List Nat := mem.takeWhile (fun c => c != 0)

/-- Modelled from the spec: the library function `strstr`, which is not among
the sources, is the substring match of the specification; this is the test
`strstr(hay, needle) != NULL` on C strings. -/
def strstr : List Nat → List Nat → Bool
  | [], needle => needle.isEmpty
  | c :: cs, needle => needle.isPrefixOf (c :: cs) || strstr cs needle

/-- Modelled from the spec: the library function `strncmp`, which is not among
the sources, decides whether the brand string equals the placeholder; this is
the test `strncmp(a, b, n) == 0`: the strings are compared byte by byte, the
end of a string reading as its zero terminator, until `n` bytes agree, a
difference is met, or both strings end. -/
def strncmpIsZero : List Nat → List Nat → Nat → Bool
  | _, _, 0 => true
  | a, b, n + 1 =>
    if a.headD 0 != b.headD 0 then false
    else if a.headD 0 == 0 then true
    else strncmpIsZero a.tail b.tail n

/-- Modelled from the spec: the library function `strlcpy`, which is not among
the sources, stores the bounded-length brand text; this is the content of `dst`
after `strlcpy(dst, src, size)`: at most `size - 1`
bytes of `src`; nothing is written when `size` is 0. -/
def strlcpy (dst src : List Nat) (size : Nat) : List Nat :=
  if size = 0 then dst else src.take (size - 1)

/-- The four bytes of a 32-bit register in memory order (little endian). -/
def bytes32 (x : Nat) : List Nat :=
  [x % 256, x / 2 ^ 8 % 256, x / 2 ^ 16 % 256, x / 2 ^ 24 % 256]

/-- The sixteen bytes of `uint32_t reg[4]` after `do_cpuid(leaf, reg)`. -/
def regBytes (r : Regs) : List Nat :=
  bytes32 r.eax ++ bytes32 r.ebx ++ bytes32 r.ecx ++ bytes32 r.edx

/-! ## Declarations of the included headers -/

/-- Constants and macros that the file takes from the headers it includes
(`cpu/cpuid.h`, `cpu/proc_reg.h`, `pci.h`, `platform.h`).  The headers are not
among the sources, so each value is a parameter of the embedding: the address
macro `PCIADDR(bus, dev, func)`, the indices `LEAF_*` into the cached
identification data, the vendor and model codes, the indices of the
model-specific registers, the placeholder text `CPU_STRING_UNKNOWN` (as bytes,
without its terminator) and `sizeof(gPlatform.CPU.BrandString)`. -/
structure Headers where
  PCIADDR : Nat → Nat → Nat → Nat
  LEAF_0 : Nat
  LEAF_1 : Nat
  LEAF_2 : Nat
  LEAF_4 : Nat
  LEAF_80 : Nat
  LEAF_81 : Nat
  CPU_VENDOR_INTEL : Nat
  CPU_MODEL_DALES_32NM : Nat
  CPU_MODEL_WESTMERE : Nat
  CPU_MODEL_WESTMERE_EX : Nat
  CPU_MODEL_SB_CORE : Nat
  CPU_MODEL_NEHALEM : Nat
  CPU_MODEL_FIELDS : Nat
  CPU_MODEL_DALES : Nat
  CPU_MODEL_NEHALEM_EX : Nat
  MSR_CORE_THREAD_COUNT : Nat
  MSR_PLATFORM_INFO : Nat
  MSR_FLEX_RATIO : Nat
  MSR_IA32_PERF_STATUS : Nat
  CPU_STRING_UNKNOWN : List Nat
  sizeofBrandString : Nat

/-! ## getQPISpeed -/

/-- Modelled from the spec: the primitive `pciConfigRead16` of `pci.h`, which is
not among the sources, reads a 16-bit value of the configuration space. -/
def pciConfigRead16 (hw : Hardware) (addr off : Nat) : Nat := hw.pci16 addr off % 2 ^ 16

/-- Modelled from the spec: the primitive `pciConfigRead32` of `pci.h`, which is
not among the sources, reads a 32-bit value of the configuration space. -/
def pciConfigRead32 (hw : Hardware) (addr off : Nat) : Nat := hw.pci32 addr off % 2 ^ 32

/-- The table `possible_nhm_bus`. -/
def possible_nhm_bus : List Nat := [0xFF, 0x7F, 0x3F]

/-- The value of `vendorID` in the scan of candidate `bus`. -/
def nhmVendorID (H : Headers) (hw : Hardware) (bus : Nat) : Nat :=
  pciConfigRead16 hw (H.PCIADDR bus 3 4) 0x00 &&& 0xFFFF

/-- The value of `deviceID` in the scan of candidate `bus`. -/
def nhmDeviceID (H : Headers) (hw : Hardware) (bus : Nat) : Nat :=
  pciConfigRead16 hw (H.PCIADDR bus 3 4) 0x02 &&& 0xFF00

/-- The test `vendorID == 0x8086 && deviceID >= 0x2C00` for candidate `bus`. -/
def busQualifies (H : Headers) (hw : Hardware) (bus : Nat) : Prop :=
  nhmVendorID H hw bus = 0x8086 ∧ nhmDeviceID H hw bus ≥ 0x2C00

instance (H : Headers) (hw : Hardware) (bus : Nat) : Decidable (busQualifies H hw bus) := by
  unfold busQualifies; infer_instance

/-- One iteration of the scan loop of `getQPISpeed`: maps `nhm_bus` before the
iteration for candidate `bus` to `nhm_bus` after it. -/
def nhmBusStep (H : Headers) (hw : Hardware) (nhm_bus bus : Nat) : Nat :=
  if busQualifies H hw bus then bus else nhm_bus

/-- The value of `nhm_bus` after the scan loop. -/
def findNhmBus (H : Headers) (hw : Hardware) : Nat :=
  possible_nhm_bus.foldl (nhmBusStep H hw) 0

/-- The value of `qpimult` read on bus `nhm_bus`. -/
def qpiMult (H : Headers) (hw : Hardware) (nhm_bus : Nat) : Nat :=
  pciConfigRead32 hw (H.PCIADDR nhm_bus 2 1) 0x50 &&& 0x7F

/-- The body of `if (nhm_bus)` in `getQPISpeed`: the value of `qpiBusSpeed`
computed from bus `nhm_bus`.  The product is formed in 64 bits and stored in an
`unsigned long`; the addition of 50 is an `unsigned long` addition. -/
def qpiSpeedOnBus (H : Headers) (hw : Hardware) (nhm_bus aFSBFrequency : Nat) : Nat :=
  let qpimult := qpiMult H hw nhm_bus
  let qpiBusSpeed := (qpimult * 2 % 2 ^ 32 * (aFSBFrequency / 1000000)) % 2 ^ 64 % 2 ^ 32
  if qpiBusSpeed % 100 ≠ 0 then (qpiBusSpeed + 50) % 2 ^ 32 / 100 * 100
  else qpiBusSpeed

/-- The function `getQPISpeed`. -/
def getQPISpeed (H : Headers) (hw : Hardware) (aFSBFrequency : Nat) : Nat :=
  let nhm_bus := findNhmBus H hw
  if nhm_bus ≠ 0 then qpiSpeedOnBus H hw nhm_bus aFSBFrequency
  else 0

/-- The speed before rounding as the specification writes it: multiplier times
two times the bus frequency in MHz, over the integers. -/
def rawQPISpeed (H : Headers) (hw : Hardware) (aFSBFrequency : Nat) : Nat :=
  qpiMult H hw (findNhmBus H hw) * 2 * (aFSBFrequency / 1000000)

/-- Rounding to the nearest hundred, halves up, as the specification writes it. -/
def round100 (raw : Nat) : Nat :=
  if raw % 100 = 0 then raw else (raw + 50) / 100 * 100

/-- Header parameters used in the examples: the address macro packs bus, device
and function into disjoint bit ranges below the enable bit 31; leaves, vendor,
models and register indices carry the values of the processor manuals. -/
def stdHeaders : Headers where
  PCIADDR := fun bus dev func => 2 ^ 31 + bus * 2 ^ 16 + dev * 2 ^ 11 + func * 2 ^ 8
  LEAF_0 := 0
  LEAF_1 := 1
  LEAF_2 := 2
  LEAF_4 := 3
  LEAF_80 := 4
  LEAF_81 := 5
  CPU_VENDOR_INTEL := 0x756E6547
  CPU_MODEL_DALES_32NM := 0x25
  CPU_MODEL_WESTMERE := 0x2C
  CPU_MODEL_WESTMERE_EX := 0x2F
  CPU_MODEL_SB_CORE := 0x2A
  CPU_MODEL_NEHALEM := 0x1A
  CPU_MODEL_FIELDS := 0x1E
  CPU_MODEL_DALES := 0x1F
  CPU_MODEL_NEHALEM_EX := 0x2E
  MSR_CORE_THREAD_COUNT := 0x35
  MSR_PLATFORM_INFO := 0xCE
  MSR_FLEX_RATIO := 0x194
  MSR_IA32_PERF_STATUS := 0x198
  CPU_STRING_UNKNOWN := lit "Unknown CPU Typ"
  sizeofBrandString := 48

/-- A configuration space in which every function at device 3 function 4 reports
vendor 0x8086 and device 0x2C70 on the buses listed in `buses`, and the register
at offset 0x50 of device 2 function 1 of bus `b` holds `mult b`. -/
def nhmChipset (buses : List Nat) (mult : Nat → Nat) : Hardware :=
  { constTimer 0 0 0 with
    pci16 := fun addr off =>
      if buses.any (fun b => addr == stdHeaders.PCIADDR b 3 4) then
        (if off = 0 then 0x8086 else if off = 2 then 0x2C70 else 0)
      else 0xFFFF
    pci32 := fun addr off =>
      if off = 0x50 then
        (if addr = stdHeaders.PCIADDR 0xFF 2 1 then mult 0xFF
         else if addr = stdHeaders.PCIADDR 0x7F 2 1 then mult 0x7F
         else if addr = stdHeaders.PCIADDR 0x3F 2 1 then mult 0x3F
         else 0xFFFFFFFF)
      else 0xFFFFFFFF }

/-! ## initCPUStruct -/

/-- Modelled from the spec: the record `gPlatform.CPU`, whose declaration
(`platform.h`) is not among the sources, is the platform record of the
specification.  Each field holds the value assigned to it, `ID` is the cache of
identification data indexed by `LEAF_*`, `BrandString` is the C string held by
the character array, and `Type_` is the field `Type`. -/
@[ext] structure CPUInfo where
  ID : Nat → Regs
  Vendor : Nat
  Signature : Nat
  Stepping : Nat
  Model : Nat
  Family : Nat
  ExtModel : Nat
  ExtFamily : Nat
  BrandString : List Nat
  Mobile : Bool
  Features : Nat
  Type_ : Nat
  NumCores : Nat
  NumThreads : Nat
  MaxCoef : Nat
  MaxDiv : Nat
  CurrCoef : Nat
  CurrDiv : Nat
  TSCFrequency : Nat
  FSBFrequency : Nat
  CPUFrequency : Nat
  QPISpeed : Nat

/-- The local variables of `initCPUStruct` that outlive a branch: four `uint8_t`,
one `uint32_t` and two `uint64_t`. -/
structure Locals where
  maxcoef : Nat
  maxdiv : Nat
  currcoef : Nat
  currdiv : Nat
  qpiSpeed : Nat
  fsbFrequency : Nat
  cpuFrequency : Nat

/-- The constant `DEFAULT_FSB`. -/
def DEFAULT_FSB : Nat := 100000

/-- Truncation of the four registers to 32 bits. -/
def regs32 (r : Regs) : Regs := ⟨r.eax % 2 ^ 32, r.ebx % 2 ^ 32, r.ecx % 2 ^ 32, r.edx % 2 ^ 32⟩

/-- Modelled from the spec: the primitive `do_cpuid` of `cpu/cpuid.h`, which is
not among the sources, stores the four 32-bit identification registers of
`leaf`. -/
def do_cpuid (hw : Hardware) (leaf : Nat) : Regs := regs32 (hw.cpuid leaf)

/-- Modelled from the spec: the primitive `do_cpuid2` of `cpu/cpuid.h`, which is
not among the sources, stores the four 32-bit identification registers of
`leaf` and `subleaf`. -/
def do_cpuid2 (hw : Hardware) (leaf subleaf : Nat) : Regs := regs32 (hw.cpuid2 leaf subleaf)

/-- Modelled from the spec: the primitive `rdmsr64` of `cpu/proc_reg.h`, which is
not among the sources, reads a 64-bit model-specific register. -/
def rdmsr64 (hw : Hardware) (index : Nat) : Nat := hw.msr index % 2 ^ 64

/-- Modelled from the spec: the macro `getCachedCPUID(leaf, reg)` of
`cpu/cpuid.h`, which is not among the sources, selects a cached register by leaf
and field; the choice of register is a projection of the result. -/
def getCachedCPUID (r : CPUInfo) (leaf : Nat) : Regs := r.ID leaf

/-- Modelled from the spec: the macro `bitfield32(x, h, l)` of `cpu/cpuid.h`,
which is not among the sources; the specification reads it as the bits `l` to
`h` of `x`, both included, moved down to bit 0. -/
def bitfield32 (x h l : Nat) : Nat := x / 2 ^ l % 2 ^ (h + 1 - l)

/-- Lines 165 to 175: the identification data are read and cached; extended
leaf 1 only when the low four bits of the cached `LEAF_80` `eax` are at least 1.
Here and below a conditional assignment `if (c) x = v;` is the update of `x` to
`if c then v else x`. -/
def cacheCPUIDData (H : Headers) (hw : Hardware) (r : CPUInfo) : CPUInfo :=
  let r := { r with ID := Function.update r.ID H.LEAF_0 (do_cpuid hw 0x00000000) }
  let r := { r with ID := Function.update r.ID H.LEAF_1 (do_cpuid hw 0x00000001) }
  let r := { r with ID := Function.update r.ID H.LEAF_2 (do_cpuid hw 0x00000002) }
  let r := { r with ID := Function.update r.ID H.LEAF_4 (do_cpuid2 hw 0x00000004 0) }
  let r := { r with ID := Function.update r.ID H.LEAF_80 (do_cpuid hw 0x80000000) }
  { r with
    ID :=
      if (getCachedCPUID r H.LEAF_80).eax &&& 0x0000000f ≥ 1 then
        Function.update r.ID H.LEAF_81 (do_cpuid hw 0x80000001)
      else r.ID }

/-- Lines 193 to 202: vendor, signature, stepping, model and family. -/
def setIdentification (H : Headers) (r : CPUInfo) : CPUInfo :=
  let r := { r with Vendor := (getCachedCPUID r H.LEAF_0).ebx }
  let r := { r with Signature := (getCachedCPUID r H.LEAF_1).eax }
  let r := { r with Stepping := bitfield32 (getCachedCPUID r H.LEAF_1).eax 3 0 }
  let r := { r with Model := bitfield32 (getCachedCPUID r H.LEAF_1).eax 7 4 }
  let r := { r with Family := bitfield32 (getCachedCPUID r H.LEAF_1).eax 11 8 }
  let r := { r with ExtModel := bitfield32 (getCachedCPUID r H.LEAF_1).eax 19 16 }
  let r := { r with ExtFamily := bitfield32 (getCachedCPUID r H.LEAF_1).eax 27 20 }
  { r with Model := r.Model + r.ExtModel <<< 4 }

/-- Lines 218 to 256: the body of the test on the brand-string leaves.  The two
calls of `strstr` at line 222 read the sixteen bytes of `reg` and, when none of
them is zero, the memory after `reg`; the loop of line 233 and `strlcpy` read
the 48 bytes copied into `str` and, when none of them is zero, `str[48]` and
what follows. -/
def readBrandString (H : Headers) (hw : Hardware) (r : CPUInfo) : CPUInfo :=
  let reg := do_cpuid hw 0x80000002
  let str0 := regBytes reg
  let r :=
    { r with
      Mobile :=
        if strstr (cstring (regBytes reg ++ hw.afterReg)) (lit "Atom") ||
            strstr (cstring (regBytes reg ++ hw.afterReg)) (lit "Mobile") then true
        else r.Mobile }
  let reg := do_cpuid hw 0x80000003
  let str16 := regBytes reg
  let reg := do_cpuid hw 0x80000004
  let str32 := regBytes reg
  let s := (cstring (str0 ++ str16 ++ str32 ++ hw.afterStr)).dropWhile (fun c => c == 32)
  let r := { r with BrandString := strlcpy r.BrandString s H.sizeofBrandString }
  let r :=
    { r with
      Mobile := if !r.Mobile && strstr r.BrandString (lit " M ") then true else r.Mobile }
  { r with
    BrandString :=
      if strncmpIsZero r.BrandString H.CPU_STRING_UNKNOWN
          (min H.sizeofBrandString (H.CPU_STRING_UNKNOWN.length + 1)) then []
      else r.BrandString }

/-- Lines 207 to 257: the brand string and the mobile flag. -/
def setBrandString (H : Headers) (hw : Hardware) (r : CPUInfo) : CPUInfo :=
  if (r.ID H.LEAF_80).eax ≥ 0x80000004 then readBrandString H hw r else r

/-- Lines 261 to 265: the feature mask. -/
def setupFeatures (H : Headers) (r : CPUInfo) : CPUInfo :=
  let r := { r with Features := r.Features ||| (getCachedCPUID r H.LEAF_1).ecx }
  let r := { r with Features := r.Features ||| (getCachedCPUID r H.LEAF_1).edx }
  let r := { r with Features := r.Features ||| (getCachedCPUID r H.LEAF_81).ecx }
  { r with Features := r.Features ||| (getCachedCPUID r H.LEAF_81).edx }

/-- The test of line 276 on family and model. -/
def familyModelTest (r : CPUInfo) : Prop :=
  (r.Family = 0x06 ∧ r.Model ≥ 0x0c) ∨ (r.Family = 0x0f ∧ r.Model ≥ 0x03)

instance (r : CPUInfo) : Decidable (familyModelTest r) := by
  unfold familyModelTest; infer_instance

/-- The value of `hiBit` after the `switch` of lines 280 to 300. -/
def hiBitOf (H : Headers) (model : Nat) : Nat :=
  if model = H.CPU_MODEL_DALES_32NM ∨ model = H.CPU_MODEL_WESTMERE ∨
      model = H.CPU_MODEL_WESTMERE_EX ∨ model = H.CPU_MODEL_SB_CORE then 19
  else if model = H.CPU_MODEL_NEHALEM ∨ model = H.CPU_MODEL_FIELDS ∨
      model = H.CPU_MODEL_DALES ∨ model = H.CPU_MODEL_NEHALEM_EX then 31
  else 0

/-- Lines 311 to 386: the branch taken when `hiBit` is set.  The block under
`DEBUG_CPU_TURBO_RATIO`, which the file does not define, is not compiled. -/
def modernPath (H : Headers) (hw : Hardware) (hiBit tscFrequency : Nat)
    (r : CPUInfo) (l : Locals) : CPUInfo × Locals :=
  let msr := rdmsr64 hw H.MSR_CORE_THREAD_COUNT
  let r := { r with NumCores := bitfield32 msr hiBit 16 }
  let r := { r with NumThreads := bitfield32 msr 15 0 }
  let r :=
    { r with
      Type_ :=
        if strstr r.BrandString (lit "Core(TM) i7-2") then 0x307
        else if strstr r.BrandString (lit "Core(TM) i5") then 0x601
        else if strstr r.BrandString (lit "Core(TM) i3") then 0x901
        else 0x0701 }
  let msr := rdmsr64 hw H.MSR_PLATFORM_INFO
  let l := { l with currcoef := ((msr >>> 8) &&& 0xff) % 2 ^ 8 }
  let msr := rdmsr64 hw H.MSR_FLEX_RATIO
  let l :=
    { l with
      currcoef :=
        if (msr >>> 16) &&& 0x01 ≠ 0 then
          let flex_ratio := (msr >>> 8) &&& 0xff
          if l.currcoef > flex_ratio then flex_ratio % 2 ^ 8 else l.currcoef
        else l.currcoef }
  let l :=
    { l with
      fsbFrequency := if l.currcoef ≠ 0 then tscFrequency / l.currcoef else l.fsbFrequency }
  let l := { l with cpuFrequency := tscFrequency }
  let l := { l with qpiSpeed := getQPISpeed H hw l.fsbFrequency % 2 ^ 32 }
  (r, l)

/-- Lines 400 to 452: the branch taken when `hiBit` is not set. -/
def legacyPath (H : Headers) (hw : Hardware) (tscFrequency : Nat)
    (r : CPUInfo) (l : Locals) : CPUInfo × Locals :=
  let r := { r with NumThreads := bitfield32 (getCachedCPUID r H.LEAF_1).ebx 23 16 }
  let r := { r with NumCores := (bitfield32 (getCachedCPUID r H.LEAF_4).eax 31 26 + 1) % 2 ^ 32 }
  let msr := rdmsr64 hw H.MSR_IA32_PERF_STATUS
  let l := { l with currcoef := ((msr >>> 8) &&& 0x1f) % 2 ^ 8 }
  let l := { l with maxdiv := ((msr >>> 46) &&& 0x01) % 2 ^ 8 }
  let l := { l with currdiv := ((msr >>> 14) &&& 0x01) % 2 ^ 8 }
  let l :=
    { l with
      maxcoef :=
        if (r.Family = 0x06 ∧ r.Model ≥ 0x0e) ∨ r.Family = 0x0f then
          ((msr >>> 40) &&& 0x1f) % 2 ^ 8
        else l.currcoef }
  let l :=
    { l with
      fsbFrequency :=
        if l.maxcoef ≠ 0 then
          if l.maxdiv ≠ 0 then tscFrequency * 2 % 2 ^ 64 / (l.maxcoef * 2 + 1)
          else tscFrequency / l.maxcoef
        else l.fsbFrequency }
  let l :=
    { l with
      cpuFrequency :=
        if l.maxcoef ≠ 0 then
          if l.currdiv ≠ 0 then l.fsbFrequency * (l.currcoef * 2 + 1) % 2 ^ 64 / 2
          else l.fsbFrequency * l.currcoef % 2 ^ 64
        else l.cpuFrequency }
  (r, l)

/-- Lines 274 to 455: the dispatch on vendor, family, model and `hiBit`. -/
def dispatchPath (H : Headers) (hw : Hardware) (tscFrequency : Nat)
    (r : CPUInfo) (l : Locals) : CPUInfo × Locals :=
  if r.Vendor = H.CPU_VENDOR_INTEL then
    if familyModelTest r then
      let hiBit := hiBitOf H r.Model
      if hiBit ≠ 0 then modernPath H hw hiBit tscFrequency r l
      else legacyPath H hw tscFrequency r l
    else (r, l)
  else (r, l)

/-- Lines 457 to 485: default bus frequency, refinement of the type and the
stores of the local variables into the record. -/
def finishCPUStruct (tscFrequency : Nat) (r : CPUInfo) (l : Locals) : CPUInfo :=
  let l :=
    { l with
      cpuFrequency := if l.fsbFrequency = 0 then tscFrequency else l.cpuFrequency
      fsbFrequency := if l.fsbFrequency = 0 then DEFAULT_FSB * 1000 else l.fsbFrequency }
  let r :=
    { r with
      Type_ :=
        if r.Type_ = 0x301 then
          if r.NumCores ≥ 4 then 0x0501
          else if r.NumCores = 1 ∧ r.NumThreads = 1 then 0x0201
          else r.Type_
        else r.Type_ }
  { r with
    MaxCoef := l.maxcoef
    MaxDiv := l.maxdiv
    CurrCoef := l.currcoef
    CurrDiv := l.currdiv
    TSCFrequency := tscFrequency
    FSBFrequency := l.fsbFrequency
    CPUFrequency := l.cpuFrequency
    QPISpeed := l.qpiSpeed }

/-- Lines 267 to 485: calibration, default type, dispatch and final stores. -/
def resolveFrequencies (H : Headers) (hw : Hardware) (r : CPUInfo) : CPUInfo :=
  let l : Locals :=
    { maxcoef := 0, maxdiv := 0, currcoef := 0, currdiv := 0, qpiSpeed := 0,
      fsbFrequency := 0, cpuFrequency := 0 }
  let tscFrequency := getTSCFrequency hw
  let r := { r with Type_ := 0x301 }
  let rl := dispatchPath H hw tscFrequency r l
  finishCPUStruct tscFrequency rl.1 rl.2

/-- The function `initCPUStruct`, as a map from `gPlatform.CPU` before the call
to `gPlatform.CPU` after it. -/
def initCPUStruct (H : Headers) (hw : Hardware) (r : CPUInfo) : CPUInfo :=
  let r := cacheCPUIDData H hw r
  let r := setIdentification H r
  let r := setBrandString H hw r
  let r := setupFeatures H r
  resolveFrequencies H hw r

/-- The record at line 267, before calibration: identification data cached,
identification, brand string, mobile flag and features set. -/
def preResolve (H : Headers) (hw : Hardware) (r : CPUInfo) : CPUInfo :=
  setupFeatures H (setBrandString H hw (setIdentification H (cacheCPUIDData H hw r)))

/-- The initial values of the local variables at line 269. -/
def initLocals : Locals :=
  { maxcoef := 0, maxdiv := 0, currcoef := 0, currdiv := 0, qpiSpeed := 0,
    fsbFrequency := 0, cpuFrequency := 0 }

/-- The vendor is Intel and the test of line 276 on family and model holds. -/
def intelModelTest (H : Headers) (r : CPUInfo) : Prop :=
  r.Vendor = H.CPU_VENDOR_INTEL ∧ familyModelTest r

instance (H : Headers) (r : CPUInfo) : Decidable (intelModelTest H r) := by
  unfold intelModelTest; infer_instance

/-- The record `gPlatform.CPU` of a freshly loaded image: all zero. -/
def zeroCPUInfo : CPUInfo where
  ID := fun _ => ⟨0, 0, 0, 0⟩
  Vendor := 0
  Signature := 0
  Stepping := 0
  Model := 0
  Family := 0
  ExtModel := 0
  ExtFamily := 0
  BrandString := []
  Mobile := false
  Features := 0
  Type_ := 0
  NumCores := 0
  NumThreads := 0
  MaxCoef := 0
  MaxDiv := 0
  CurrCoef := 0
  CurrDiv := 0
  TSCFrequency := 0
  FSBFrequency := 0
  CPUFrequency := 0
  QPISpeed := 0

/-! ## Simulated machines used in the examples -/

/-- The little-endian value of a list of bytes. -/
def packBytes (bs : List Nat) : Nat := bs.foldr (fun b acc => b + 256 * acc) 0

/-- The register file holding a block of sixteen bytes. -/
def regsOfBytes (bs : List Nat) : Regs :=
  ⟨packBytes (bs.take 4), packBytes ((bs.drop 4).take 4), packBytes ((bs.drop 8).take 4),
    packBytes ((bs.drop 12).take 4)⟩

/-- The registers reported by brand-string leaf `0x80000002 + k` for the text
`s`, padded with zero bytes. -/
def brandRegs (s : String) (k : Nat) : Regs :=
  regsOfBytes (((lit s ++ List.replicate 48 0).drop (16 * k)).take 16)

/-- A simulated Intel machine: signature `sig` and `ebx` value `ebx1` on leaf 1,
`eax` value `eax4` on leaf 4, brand text `brand`, model-specific registers
`msr`, a chipset on bus 0xFF with link multiplier 18, a timer that counts
4000000 ticks in each calibration run (tick rate 133333333 Hz), and the clear
memory of `constTimer`. -/
def intelMachine (sig ebx1 eax4 : Nat) (brand : String) (msr : Nat → Nat) : Hardware :=
  { nhmChipset [0xFF] (fun _ => 18) with
    cpuid := fun leaf =>
      if leaf = 0 then ⟨0xB, 0x756E6547, 0x6C65746E, 0x49656E69⟩
      else if leaf = 1 then ⟨sig, ebx1, 0x0098E3FD, 0xBFEBFBFF⟩
      else if leaf = 0x80000000 then ⟨0x80000008, 0, 0, 0⟩
      else if leaf = 0x80000001 then ⟨0, 0, 1, 0x28100000⟩
      else if leaf = 0x80000002 then brandRegs brand 0
      else if leaf = 0x80000003 then brandRegs brand 1
      else if leaf = 0x80000004 then brandRegs brand 2
      else ⟨0, 0, 0, 0⟩
    cpuid2 := fun leaf _ => if leaf = 4 then ⟨eax4, 0, 0, 0⟩ else ⟨0, 0, 0, 0⟩
    msr := msr
    pollCount := fun _ => 1000
    tscStart := fun _ => 5
    tscEnd := fun _ => 4000005 }

/-- A Nehalem-class machine (family 6, model 0x1A) whose core/thread-count
register holds `ctc` and whose other model-specific registers read 0. -/
def nehalemMachine (ctc : Nat) : Hardware :=
  intelMachine 0x106A5 0x00100800 0x1C004121 "Intel(R) Core(TM) i7 CPU 920 @ 2.67GHz"
    (fun i => if i = 0x35 then ctc else 0)

/-- A Pentium M class machine (family 6, model 0x0D): no logical-processor count
on leaf 1, no leaf 4, performance-status register `perf`. -/
def pentiumMMachine (perf : Nat) : Hardware :=
  intelMachine 0x6D8 0x00000816 0 "Intel(R) Pentium(R) M processor 2.00GHz"
    (fun i => if i = 0x198 then perf else 0)

/-- A machine of another vendor: every identification register reads 0; the
timer is that of `intelMachine`. -/
def otherVendorMachine : Hardware := constTimer 1000 5 4000005

/-! ## Definitions used to state the claims on the resolver -/

/-- The tag assigned at lines 317 to 332, as a function of the brand string. -/
def brandCPUType (brand : List Nat) : Nat :=
  if strstr brand (lit "Core(TM) i7-2") then 0x307
  else if strstr brand (lit "Core(TM) i5") then 0x601
  else if strstr brand (lit "Core(TM) i3") then 0x901
  else 0x0701

/-- The 48 bytes of `str` after the three copies of lines 219 to 231. -/
def brandBytes (hw : Hardware) : List Nat :=
  regBytes (do_cpuid hw 0x80000002) ++ regBytes (do_cpuid hw 0x80000003) ++
    regBytes (do_cpuid hw 0x80000004)

/-- The string at `s` after the loop of lines 233 to 239: the C string that
starts at `str`, without its leading spaces.  It runs into `str[48]` and beyond
when the 48 bytes hold no zero byte. -/
def trimmedBrand (hw : Hardware) : List Nat :=
  (cstring (brandBytes hw ++ hw.afterStr)).dropWhile (fun c => c == 32)

/-- The text that the 48 bytes of the three leaves spell: their bytes before the
first zero byte, without the leading spaces. -/
def brandText (hw : Hardware) : List Nat :=
  (cstring (brandBytes hw)).dropWhile (fun c => c == 32)

/-- The resolved multiplier as the specification writes it: bits 8 to 15 of the
platform-info register, lowered to bits 8 to 15 of the flex-ratio register when
bit 16 of the flex-ratio register is set. -/
def resolvedMultiplier (H : Headers) (hw : Hardware) : Nat :=
  if bitfield32 (rdmsr64 hw H.MSR_FLEX_RATIO) 16 16 = 1 then
    min (bitfield32 (rdmsr64 hw H.MSR_PLATFORM_INFO) 15 8)
      (bitfield32 (rdmsr64 hw H.MSR_FLEX_RATIO) 15 8)
  else bitfield32 (rdmsr64 hw H.MSR_PLATFORM_INFO) 15 8

/-- A Westmere-class machine (family 6, model 0x2C, in the erratum-affected
list) with brand text `brand`: the core/thread-count register reports 4 cores
and 4 threads, the platform-info register the multiplier 20, the flex-ratio
register is clear. -/
def westmereMachine (brand : String) : Hardware :=
  intelMachine 0x206C2 0x00100800 0x1C004121 brand
    (fun i => if i = 0x35 then 0x00040004 else if i = 0xCE then 0x1400 else 0)

/-- The bus frequency of the legacy path as the specification writes it, from
tick rate `t`, maximum multiplier `M` and its half-step flag `D`. -/
def legacyBusFrequency (t M D : Nat) : Nat :=
  if D ≠ 0 then 2 * t / (2 * M + 1) else t / M

/-- The CPU frequency of the legacy path as the specification writes it, from
bus frequency `b`, current multiplier `c` and its half-step flag `d`. -/
def legacyCPUFrequency (b c d : Nat) : Nat :=
  if d ≠ 0 then b * (2 * c + 1) / 2 else b * c

/-- A Core 2 class machine (family 6, model 0x17, legacy path) whose
performance-status register holds `perf`. -/
def core2Machine (perf : Nat) : Hardware :=
  intelMachine 0x1067A 0x00020800 0x04000121 "Intel(R) Core(TM)2 Duo CPU E8400 @ 3.00GHz"
    (fun i => if i = 0x198 then perf else 0)

/-- The C string that `strstr` reads at `reg` at line 222: the bytes of leaf
0x80000002 and of the memory after `reg`, before the first zero byte. -/
def firstChunk (hw : Hardware) : List Nat :=
  cstring (regBytes (do_cpuid hw 0x80000002) ++ hw.afterReg)

/-- The length `min(sizeof(BrandString), strlen(CPU_STRING_UNKNOWN) + 1)` of the
comparison of line 249. -/
def placeholderCmpLength (H : Headers) : Nat :=
  min H.sizeofBrandString (H.CPU_STRING_UNKNOWN.length + 1)

/-- The model is one of the four of the first group of `case` labels (the
erratum-affected models, `hiBit = 19`). -/
def erratumModel (H : Headers) (model : Nat) : Prop :=
  model = H.CPU_MODEL_DALES_32NM ∨ model = H.CPU_MODEL_WESTMERE ∨
    model = H.CPU_MODEL_WESTMERE_EX ∨ model = H.CPU_MODEL_SB_CORE

instance (H : Headers) (model : Nat) : Decidable (erratumModel H model) := by
  unfold erratumModel; infer_instance

/-- The model is one of the four of the second group of `case` labels
(`hiBit = 31`). -/
def fullRangeModel (H : Headers) (model : Nat) : Prop :=
  model = H.CPU_MODEL_NEHALEM ∨ model = H.CPU_MODEL_FIELDS ∨
    model = H.CPU_MODEL_DALES ∨ model = H.CPU_MODEL_NEHALEM_EX

instance (H : Headers) (model : Nat) : Decidable (fullRangeModel H model) := by
  unfold fullRangeModel; infer_instance

/-- A machine whose firmware left the placeholder brand text, after three
leading spaces (family 6, model 0x17). -/
def placeholderMachine : Hardware :=
  intelMachine 0x1067A 0x00020800 0x04000121 "   Unknown CPU Typ" (fun _ => 0)

/-- An Atom class machine (family 6, model 0x1C) whose brand text is right
justified in the 47 bytes, so that "Atom" starts at byte 18. -/
def atomMachine : Hardware :=
  intelMachine 0x106C2 0x00010800 0x00000121
    "         Intel(R) Atom(TM) CPU N270   @ 1.60GHz" (fun _ => 0)

/-- An Atom class machine whose brand text starts at byte 0, so that "Atom" lies
in the first sixteen bytes. -/
def atomLeftMachine : Hardware :=
  intelMachine 0x106C2 0x00010800 0x00000121
    "Intel(R) Atom(TM) CPU N270   @ 1.60GHz" (fun _ => 0)

/-- A Pentium M class machine whose brand text holds the token " M " after the
first sixteen bytes. -/
def celeronMMachine : Hardware :=
  intelMachine 0x6D8 0x00000816 0 "Intel(R) Celeron(R) M processor 1.50GHz" (fun _ => 0)

/-- An Ivy Bridge class machine (family 6, model 0x3A, in neither group of
`case` labels) with a Core i5 brand text and 4 cores on leaf 4. -/
def ivyBridgeMachine : Hardware :=
  intelMachine 0x306A9 0x00100800 0x0C004121 "Intel(R) Core(TM) i5-3570K CPU @ 3.40GHz"
    (fun i => if i = 0x198 then 0x220000002200 else 0)

/-- A Westmere-class machine whose core/thread-count register holds `ctc`; the
other registers are those of `westmereMachine`. -/
def westmereCountMachine (ctc : Nat) : Hardware :=
  intelMachine 0x206C2 0x00100800 0x1C004121 "Intel(R) Xeon(R) CPU           E5620  @ 2.40GHz"
    (fun i => if i = 0x35 then ctc else if i = 0xCE then 0x1400 else 0)

/-- A machine on which leaf 0x80000000 reports `eax80` in `eax` and leaf
0x80000001 reports feature bits; every other register reads 0. -/
def extLeafMachine (eax80 : Nat) : Hardware :=
  { constTimer 1000 5 4000005 with
    cpuid := fun leaf =>
      if leaf = 0x80000000 then ⟨eax80, 0, 0, 0⟩
      else if leaf = 0x80000001 then ⟨0, 0, 1, 0x28100000⟩
      else ⟨0, 0, 0, 0⟩ }

/-- The machine `hw` as a call of `initCPUStruct` finds it when `str` lies right
after `reg` in the stack frame and the stack held zero bytes before the call:
at line 222 the sixteen bytes after `reg` are the copy of `reg` that line 219
stored in `str[0..15]`, and `str[16]` is zero. -/
def firstCall (hw : Hardware) : Hardware :=
  { hw with
    afterReg := regBytes (do_cpuid hw 0x80000002)
    afterStr := [] }

/-- The machine `hw` as the next call finds it in the same stack frame: the
registers are those of the first call, and `str[16..47]` still holds the bytes
of leaves 0x80000003 and 0x80000004 that the first call copied there. -/
def secondCall (hw : Hardware) : Hardware :=
  { hw with
    afterReg := brandBytes hw
    afterStr := [] }

/-- The machine `placeholderMachine` found with other bytes after `reg` and in
`str[48..50]`. -/
def placeholderDirtyMachine : Hardware :=
  { placeholderMachine with
    afterReg := lit "Atom"
    afterStr := lit "Typ" }

/-- A Westmere-class machine whose Core i5 brand text has "om" at bytes 0 and 1
and "At" at bytes 14 and 15, found with `str` right after `reg` on a stack of
zero bytes. -/
def westmereWrapMachine : Hardware :=
  firstCall (westmereMachine "om Intel(R) i At Core(TM) i5 CPU")

/-! ## Lemmas on the calibration loop -/

theorem sub64_lt (a b : Nat) : sub64 a b < 2 ^ 64 :=
  Nat.mod_lt _ (by norm_num)

theorem tscRunDelta_lt (hw : Hardware) (i : Nat) : tscRunDelta hw i < 2 ^ 64 :=
  sub64_lt _ _

theorem calibrationLoop_succ (hw : Hardware) (n : Nat) :
    calibrationLoop hw (n + 1) = calibrationRun hw (calibrationLoop hw n) n := by
  simp [calibrationLoop, List.range_succ, List.foldl_append]

theorem calibrationRun_valid (hw : Hardware) (acc i : Nat) (h : validRun hw i) :
    calibrationRun hw acc i = min (tscRunDelta hw i) acc := by
  obtain ⟨h1, h2⟩ := h
  unfold calibrationRun tscRunDelta at *
  simp only
  rw [if_neg (by omega), if_neg (by omega)]
  split <;> omega

theorem calibrationRun_invalid (hw : Hardware) (acc i : Nat) (h : ¬ validRun hw i) :
    calibrationRun hw acc i = acc := by
  unfold validRun tscRunDelta at h
  unfold calibrationRun
  simp only
  by_cases h1 : poll_PIT2_gate hw i ≤ 1
  · rw [if_pos h1]
  · rw [if_neg h1, if_pos]
    by_contra h2
    exact h ⟨by omega, by omega⟩

/-- Loop invariant: after `n` runs `tscDelta` is at most every kept delta, and is
either still the initial all-ones value or the delta of a kept run. -/
theorem calibrationLoop_inv (hw : Hardware) (n : Nat) :
    (∀ j, j < n → validRun hw j → calibrationLoop hw n ≤ tscRunDelta hw j) ∧
    (calibrationLoop hw n = 2 ^ 64 - 1 ∨
      ∃ i, i < n ∧ validRun hw i ∧ calibrationLoop hw n = tscRunDelta hw i) ∧
    ((∀ j, j < n → ¬ validRun hw j) → calibrationLoop hw n = 2 ^ 64 - 1) := by
  induction n with
  | zero =>
    refine ⟨fun j hj => absurd hj (Nat.not_lt_zero j), Or.inl ?_, fun _ => ?_⟩ <;>
      simp [calibrationLoop]
  | succ n ih =>
    obtain ⟨ih1, ih2, ih3⟩ := ih
    rw [calibrationLoop_succ]
    by_cases hv : validRun hw n
    · rw [calibrationRun_valid hw _ n hv]
      refine ⟨?_, ?_, ?_⟩
      · intro j hj hvj
        rcases Nat.lt_succ_iff_lt_or_eq.mp hj with hlt | heq
        · exact le_trans (min_le_right _ _) (ih1 j hlt hvj)
        · subst heq; exact min_le_left _ _
      · rcases le_total (tscRunDelta hw n) (calibrationLoop hw n) with hle | hle
        · right; exact ⟨n, Nat.lt_succ_self n, hv, min_eq_left hle⟩
        · rw [min_eq_right hle]
          rcases ih2 with h | ⟨i, hi, hvi, he⟩
          · left; exact h
          · right; exact ⟨i, Nat.lt_succ_of_lt hi, hvi, he⟩
      · intro hall
        exact absurd hv (hall n (Nat.lt_succ_self n))
    · rw [calibrationRun_invalid hw _ n hv]
      refine ⟨?_, ?_, ?_⟩
      · intro j hj hvj
        rcases Nat.lt_succ_iff_lt_or_eq.mp hj with hlt | heq
        · exact ih1 j hlt hvj
        · subst heq; exact absurd hvj hv
      · rcases ih2 with h | ⟨i, hi, hvi, he⟩
        · left; exact h
        · right; exact ⟨i, Nat.lt_succ_of_lt hi, hvi, he⟩
      · intro hall
        exact ih3 (fun j hj => hall j (Nat.lt_succ_of_lt hj))

/-- With a least kept delta `d`, the loop ends with `tscDelta = d`. -/
theorem calibrationLoop_eq_min (hw : Hardware) (d : Nat) (h : IsMinValidDelta hw d) :
    calibrationLoop hw 10 = d := by
  obtain ⟨⟨i, hi, hvi, hdi⟩, hmin⟩ := h
  obtain ⟨h1, h2, -⟩ := calibrationLoop_inv hw 10
  have hle : calibrationLoop hw 10 ≤ d := hdi ▸ h1 i hi hvi
  have hlt : d < 2 ^ 64 := hdi ▸ tscRunDelta_lt hw i
  rcases h2 with h | ⟨k, hk, hvk, hek⟩
  · omega
  · have := hmin k hk hvk
    omega

/-- When some run is kept, the final `tscDelta` is the least kept delta. -/
theorem calibrationLoop_isMin (hw : Hardware) (h : ∃ i, i < 10 ∧ validRun hw i) :
    IsMinValidDelta hw (calibrationLoop hw 10) := by
  obtain ⟨i, hi, hvi⟩ := h
  obtain ⟨h1, h2, -⟩ := calibrationLoop_inv hw 10
  refine ⟨?_, h1⟩
  rcases h2 with h | ⟨k, hk, hvk, hek⟩
  · refine ⟨i, hi, hvi, ?_⟩
    have := h1 i hi hvi
    have := tscRunDelta_lt hw i
    omega
  · exact ⟨k, hk, hvk, hek.symm⟩

theorem calibrationLoop_congr (hw1 hw2 : Hardware)
    (h : ∀ i, i < 10 →
      (poll_PIT2_gate hw1 i = poll_PIT2_gate hw2 i ∧
        rdtsc64Start hw1 i = rdtsc64Start hw2 i ∧
        rdtsc64End hw1 i = rdtsc64End hw2 i) ∨
      (¬ validRun hw1 i ∧ ¬ validRun hw2 i)) (n : Nat) (hn : n ≤ 10) :
    calibrationLoop hw1 n = calibrationLoop hw2 n := by
  induction n with
  | zero => rfl
  | succ n ih =>
    rw [calibrationLoop_succ, calibrationLoop_succ, ih (Nat.le_of_succ_le hn)]
    rcases h n hn with ⟨hp, hs, he⟩ | ⟨hv1, hv2⟩
    · unfold calibrationRun
      rw [hp, hs, he]
    · rw [calibrationRun_invalid hw1 _ n hv1, calibrationRun_invalid hw2 _ n hv2]

/-- With a least kept delta `d` of at most `2 ^ 32` the scaling branch is taken
and the 64-bit product does not wrap. -/
theorem getTSCFrequency_of_min (hw : Hardware) (d : Nat)
    (hmin : IsMinValidDelta hw d) (hd : d ≤ 2 ^ 32) :
    getTSCFrequency hw = d * 1000 / 30 := by
  unfold getTSCFrequency
  simp only
  rw [calibrationLoop_eq_min hw d hmin, if_neg (by omega), Nat.mod_eq_of_lt (by omega)]

/-- The tick rate never exceeds `2 ^ 32 * 1000 / 30`. -/
theorem getTSCFrequency_le (hw : Hardware) : getTSCFrequency hw ≤ 143165576533 := by
  unfold getTSCFrequency
  simp only
  split
  · exact Nat.zero_le _
  · rename_i h
    have hle : calibrationLoop hw 10 ≤ 2 ^ 32 := Nat.le_of_not_lt h
    rw [Nat.mod_eq_of_lt (by omega)]
    omega

/-! ## Claims on getTSCFrequency -/

/-- C1: over ten simulated samples, when at least one run is kept (poll count
above 1 and 64-bit delta above 30) and the least kept delta `d` is at most
`2 ^ 32`, `getTSCFrequency` returns exactly `d * 1000 / 30` rounded down. -/
theorem getTSCFrequency_min_valid_delta (hw : Hardware) (d : Nat)
    (hmin : IsMinValidDelta hw d) (hd : d ≤ 2 ^ 32) :
    getTSCFrequency hw = d * 1000 / 30 :=
  getTSCFrequency_of_min hw d hmin hd

/-- C1 at `rampTimer`: the least kept delta is 1205 and the result 40166. -/
theorem getTSCFrequency_min_valid_delta_witness :
    IsMinValidDelta rampTimer 1205 ∧ 1205 ≤ 2 ^ 32 ∧
      getTSCFrequency rampTimer = 40166 :=
  have hmin : IsMinValidDelta rampTimer 1205 :=
    ⟨⟨2, by decide, by decide, by decide⟩, by decide⟩
  ⟨hmin, by decide, getTSCFrequency_min_valid_delta rampTimer 1205 hmin (by decide)⟩

/-- C2: `getTSCFrequency` returns 0 exactly when every one of the ten runs is
discarded or the least kept delta exceeds `2 ^ 32`; in every other case the
result is strictly positive. -/
theorem getTSCFrequency_eq_zero_iff (hw : Hardware) :
    (getTSCFrequency hw = 0 ↔
      ((∀ i, i < 10 → ¬ validRun hw i) ∨ ∃ d, IsMinValidDelta hw d ∧ 2 ^ 32 < d)) ∧
    (¬ ((∀ i, i < 10 → ¬ validRun hw i) ∨ ∃ d, IsMinValidDelta hw d ∧ 2 ^ 32 < d) →
      0 < getTSCFrequency hw) := by
  have key : getTSCFrequency hw = 0 ↔
      ((∀ i, i < 10 → ¬ validRun hw i) ∨ ∃ d, IsMinValidDelta hw d ∧ 2 ^ 32 < d) := by
    by_cases hall : ∀ i, i < 10 → ¬ validRun hw i
    · have hloop := (calibrationLoop_inv hw 10).2.2 hall
      constructor
      · intro _; exact Or.inl hall
      · intro _
        unfold getTSCFrequency
        simp only
        rw [hloop, if_pos (by norm_num)]
    · have hex : ∃ i, i < 10 ∧ validRun hw i := by
        by_contra hne
        exact hall (fun i hi hv => hne ⟨i, hi, hv⟩)
      have hmin := calibrationLoop_isMin hw hex
      obtain ⟨k, hk, hvk, hek⟩ := hmin.1
      have h30 : 30 < calibrationLoop hw 10 := hek ▸ hvk.2
      constructor
      · intro h0
        right
        refine ⟨calibrationLoop hw 10, hmin, ?_⟩
        by_contra hle
        have hle2 : calibrationLoop hw 10 ≤ 2 ^ 32 := Nat.le_of_not_lt hle
        rw [getTSCFrequency_of_min hw _ hmin hle2] at h0
        omega
      · rintro (h | ⟨d, hd, hgt⟩)
        · exact absurd h hall
        · have hdl := calibrationLoop_eq_min hw d hd
          unfold getTSCFrequency
          simp only
          rw [hdl, if_pos hgt]
  exact ⟨key, fun hn => Nat.pos_of_ne_zero (fun h0 => hn (key.mp h0))⟩

/-- C2 at three timers: no kept run (result 0), a least kept delta of `2 ^ 33`
(result 0), and `rampTimer`, whose least kept delta is 1205 (result positive). -/
theorem getTSCFrequency_eq_zero_iff_witness :
    getTSCFrequency (constTimer 0 0 0) = 0 ∧
    getTSCFrequency (constTimer 5 0 (2 ^ 33)) = 0 ∧
    0 < getTSCFrequency rampTimer :=
  ⟨(getTSCFrequency_eq_zero_iff (constTimer 0 0 0)).1.mpr (Or.inl (by decide)),
    (getTSCFrequency_eq_zero_iff (constTimer 5 0 (2 ^ 33))).1.mpr
      (Or.inr ⟨2 ^ 33, ⟨⟨0, by decide, by decide, by decide⟩, by decide⟩, by decide⟩),
    (getTSCFrequency_eq_zero_iff rampTimer).2 (fun h =>
      h.elim (fun hall => hall 2 (by decide) (by decide))
        (fun ⟨d, hd, hgt⟩ =>
          absurd (Nat.lt_of_lt_of_le hgt
            (Nat.le_trans (hd.2 2 (by decide) (by decide)) (by decide : tscRunDelta rampTimer 2 ≤ 2 ^ 32)))
            (Nat.lt_irrefl _)))⟩

/-- C3: two ten-sample sequences that give the same poll count and counters in
every run, except in runs discarded in both, make `getTSCFrequency` return the
same value. -/
theorem getTSCFrequency_ignores_discarded (hw1 hw2 : Hardware)
    (h : ∀ i, i < 10 →
      (poll_PIT2_gate hw1 i = poll_PIT2_gate hw2 i ∧
        rdtsc64Start hw1 i = rdtsc64Start hw2 i ∧
        rdtsc64End hw1 i = rdtsc64End hw2 i) ∨
      (¬ validRun hw1 i ∧ ¬ validRun hw2 i)) :
    getTSCFrequency hw1 = getTSCFrequency hw2 := by
  unfold getTSCFrequency
  rw [calibrationLoop_congr hw1 hw2 h 10 (Nat.le_refl 10)]

/-- C3 at `rampTimer` and `rampTimerAlt`, which differ in the two discarded
runs only (run 1 of the second has delta 4999923 and poll count 0). -/
theorem getTSCFrequency_ignores_discarded_witness :
    tscRunDelta rampTimerAlt 1 = 4999923 ∧ tscRunDelta rampTimer 1 = 1105 ∧
      getTSCFrequency rampTimer = getTSCFrequency rampTimerAlt :=
  ⟨by decide, by decide,
    getTSCFrequency_ignores_discarded rampTimer rampTimerAlt (by decide)⟩

/-! ## Lemmas on getQPISpeed -/

theorem findNhmBus_eq (H : Headers) (hw : Hardware) :
    findNhmBus H hw =
      if busQualifies H hw 0x3F then 0x3F
      else if busQualifies H hw 0x7F then 0x7F
      else if busQualifies H hw 0xFF then 0xFF
      else 0 := by
  simp only [findNhmBus, possible_nhm_bus, List.foldl_cons, List.foldl_nil, nhmBusStep]

theorem findNhmBus_ne_zero_iff (H : Headers) (hw : Hardware) :
    findNhmBus H hw ≠ 0 ↔
      (busQualifies H hw 0xFF ∨ busQualifies H hw 0x7F ∨ busQualifies H hw 0x3F) := by
  rw [findNhmBus_eq]
  split_ifs <;> simp_all

theorem qpiMult_le (H : Headers) (hw : Hardware) (bus : Nat) : qpiMult H hw bus ≤ 127 :=
  Nat.and_le_right

theorem qpiMult_eq_mod (H : Headers) (hw : Hardware) (bus : Nat) :
    qpiMult H hw bus = pciConfigRead32 hw (H.PCIADDR bus 2 1) 0x50 % 128 :=
  Nat.and_pow_two_sub_one_eq_mod _ 7

theorem round100_mod (raw : Nat) : round100 raw % 100 = 0 := by
  unfold round100
  split
  · assumption
  · exact Nat.mul_mod_left _ _

theorem round100_near (raw : Nat) : round100 raw ≤ raw + 50 ∧ raw ≤ round100 raw + 50 := by
  unfold round100
  split <;> omega

theorem qpiSpeedOnBus_mod (H : Headers) (hw : Hardware) (bus f : Nat) :
    qpiSpeedOnBus H hw bus f % 100 = 0 := by
  unfold qpiSpeedOnBus
  simp only
  split
  · exact Nat.mul_mod_left _ _
  · rename_i h
    exact not_not.mp h

/-- Without wrap-around the body of `if (nhm_bus)` rounds the exact product. -/
theorem qpiSpeedOnBus_eq_round100 (H : Headers) (hw : Hardware) (bus f : Nat)
    (h : qpiMult H hw bus * 2 * (f / 1000000) + 50 < 2 ^ 32) :
    qpiSpeedOnBus H hw bus f = round100 (qpiMult H hw bus * 2 * (f / 1000000)) := by
  have hm := qpiMult_le H hw bus
  unfold qpiSpeedOnBus round100
  simp only
  rw [Nat.mod_eq_of_lt (show qpiMult H hw bus * 2 < 2 ^ 32 by omega),
    Nat.mod_eq_of_lt (show qpiMult H hw bus * 2 * (f / 1000000) < 2 ^ 64 by omega),
    Nat.mod_eq_of_lt (show qpiMult H hw bus * 2 * (f / 1000000) < 2 ^ 32 by omega),
    Nat.mod_eq_of_lt h]
  split_ifs <;> first | rfl | omega

/-- For a bus frequency of at most the largest tick rate, the raw speed plus 50
fits in 32 bits: the rounding of `getQPISpeed` cannot wrap on a frequency that
`initCPUStruct` derives from the tick rate. -/
theorem rawQPISpeed_small (H : Headers) (hw : Hardware) (f : Nat) (hf : f ≤ 143165576533) :
    rawQPISpeed H hw f + 50 < 2 ^ 32 := by
  unfold rawQPISpeed
  have hm := qpiMult_le H hw (findNhmBus H hw)
  have hq : f / 1000000 ≤ 143165 := by omega
  calc qpiMult H hw (findNhmBus H hw) * 2 * (f / 1000000) + 50
      ≤ 127 * 2 * 143165 + 50 := by
        apply Nat.add_le_add_right
        exact Nat.mul_le_mul (Nat.mul_le_mul_right 2 hm) hq
    _ < 2 ^ 32 := by norm_num

/-! ## Claims on getQPISpeed -/

/-- C4, falsified as stated: with multiplier 1 on bus 0x3F and a bus frequency
of 2147483625 MHz the raw speed is 4294967250, the 32-bit addition of 50 wraps
and `getQPISpeed` returns 0, which is not within 50 of the raw speed. -/
theorem getQPISpeed_rounding_counterexample :
    findNhmBus stdHeaders (nhmChipset [0x3F] (fun _ => 1)) ≠ 0 ∧
    rawQPISpeed stdHeaders (nhmChipset [0x3F] (fun _ => 1)) 2147483625000000 = 4294967250 ∧
    getQPISpeed stdHeaders (nhmChipset [0x3F] (fun _ => 1)) 2147483625000000 = 0 ∧
    ¬ (rawQPISpeed stdHeaders (nhmChipset [0x3F] (fun _ => 1)) 2147483625000000 ≤
        getQPISpeed stdHeaders (nhmChipset [0x3F] (fun _ => 1)) 2147483625000000 + 50) := by
  decide

/-- C4, amended: every value `getQPISpeed` returns is a multiple of 100, and when
a bus qualified and the raw speed `multiplier * 2 * (bus frequency / 1000000)`
plus 50 fits in 32 bits, the returned value is the raw speed rounded to the
nearest hundred, halves up, and differs from it by at most 50. -/
theorem getQPISpeed_rounding (H : Headers) (hw : Hardware) (f : Nat) :
    getQPISpeed H hw f % 100 = 0 ∧
    (findNhmBus H hw ≠ 0 → rawQPISpeed H hw f + 50 < 2 ^ 32 →
      getQPISpeed H hw f = round100 (rawQPISpeed H hw f) ∧
      getQPISpeed H hw f ≤ rawQPISpeed H hw f + 50 ∧
      rawQPISpeed H hw f ≤ getQPISpeed H hw f + 50) := by
  constructor
  · unfold getQPISpeed
    simp only
    split
    · exact qpiSpeedOnBus_mod H hw _ f
    · rfl
  · intro hbus hraw
    have he : getQPISpeed H hw f = round100 (rawQPISpeed H hw f) := by
      unfold getQPISpeed
      simp only
      rw [if_pos hbus]
      exact qpiSpeedOnBus_eq_round100 H hw _ f hraw
    rw [he]
    exact ⟨rfl, round100_near _⟩

/-- C4 amended, at multiplier 18 on bus 0x7F and a bus of 133333333 Hz: the raw
speed 4788 is returned as 4800. -/
theorem getQPISpeed_rounding_witness :
    findNhmBus stdHeaders (nhmChipset [0x7F] (fun _ => 18)) ≠ 0 ∧
    rawQPISpeed stdHeaders (nhmChipset [0x7F] (fun _ => 18)) 133333333 = 4788 ∧
    getQPISpeed stdHeaders (nhmChipset [0x7F] (fun _ => 18)) 133333333 = 4800 :=
  ⟨by decide, by decide,
    ((getQPISpeed_rounding stdHeaders (nhmChipset [0x7F] (fun _ => 18)) 133333333).2
      (by decide) (by decide)).1.trans (by decide)⟩

/-- C5: the bus kept by the scan is the last qualifying candidate in the order
0xFF, 0x7F, 0x3F (0x3F if it qualifies, else 0x7F, else 0xFF), and the
multiplier register is read from, and the result computed for, that bus. -/
theorem getQPISpeed_last_qualifying (H : Headers) (hw : Hardware) (f : Nat) :
    findNhmBus H hw =
      (if busQualifies H hw 0x3F then 0x3F
       else if busQualifies H hw 0x7F then 0x7F
       else if busQualifies H hw 0xFF then 0xFF
       else 0) ∧
    getQPISpeed H hw f =
      (if busQualifies H hw 0x3F then qpiSpeedOnBus H hw 0x3F f
       else if busQualifies H hw 0x7F then qpiSpeedOnBus H hw 0x7F f
       else if busQualifies H hw 0xFF then qpiSpeedOnBus H hw 0xFF f
       else 0) := by
  refine ⟨findNhmBus_eq H hw, ?_⟩
  unfold getQPISpeed
  simp only
  rw [findNhmBus_eq]
  split_ifs <;> simp_all

/-- C5 at a configuration space in which all three candidates qualify, with
multipliers 12, 18 and 24 on buses 0xFF, 0x7F and 0x3F: bus 0x3F is kept and
the result, 6400, is that of multiplier 24. -/
theorem getQPISpeed_last_qualifying_witness :
    findNhmBus stdHeaders
      (nhmChipset [0xFF, 0x7F, 0x3F] (fun b => if b = 0xFF then 12 else if b = 0x7F then 18 else 24))
      = 0x3F ∧
    getQPISpeed stdHeaders
      (nhmChipset [0xFF, 0x7F, 0x3F] (fun b => if b = 0xFF then 12 else if b = 0x7F then 18 else 24))
      133333333 = 6400 :=
  ⟨(getQPISpeed_last_qualifying stdHeaders
      (nhmChipset [0xFF, 0x7F, 0x3F] (fun b => if b = 0xFF then 12 else if b = 0x7F then 18 else 24))
      133333333).1.trans (by decide),
    (getQPISpeed_last_qualifying stdHeaders
      (nhmChipset [0xFF, 0x7F, 0x3F] (fun b => if b = 0xFF then 12 else if b = 0x7F then 18 else 24))
      133333333).2.trans (by decide)⟩

/-- C6, falsified as stated: with multiplier 127 on bus 0x7F and the bus
frequency `2 ^ 64 - 1` the rounded exact product is 4685472994722100, while
`getQPISpeed` returns the rounding of the product truncated to 32 bits. -/
theorem getQPISpeed_value_counterexample :
    busQualifies stdHeaders (nhmChipset [0xFF, 0x7F] (fun _ => 127)) 0x7F ∧
    qpiMult stdHeaders (nhmChipset [0xFF, 0x7F] (fun _ => 127))
      (findNhmBus stdHeaders (nhmChipset [0xFF, 0x7F] (fun _ => 127))) = 127 ∧
    round100 (127 * 2 * ((2 ^ 64 - 1) / 1000000)) = 4685472994722100 ∧
    getQPISpeed stdHeaders (nhmChipset [0xFF, 0x7F] (fun _ => 127)) (2 ^ 64 - 1) = 2977202500 := by
  decide

/-- C6, amended: `getQPISpeed` returns 0 for every bus frequency when none of the
three candidate buses qualifies; when a bus qualifies, `m` is the low 7 bits of
the register at offset 0x50 of device 2 function 1 on the selected bus, and
`m * 2 * (frequency / 1000000) + 50` fits in 32 bits, it returns that product
rounded to the nearest hundred. -/
theorem getQPISpeed_value (H : Headers) (hw : Hardware) (f : Nat) :
    ((¬ busQualifies H hw 0xFF ∧ ¬ busQualifies H hw 0x7F ∧ ¬ busQualifies H hw 0x3F) →
      getQPISpeed H hw f = 0) ∧
    ((busQualifies H hw 0xFF ∨ busQualifies H hw 0x7F ∨ busQualifies H hw 0x3F) →
      (pciConfigRead32 hw (H.PCIADDR (findNhmBus H hw) 2 1) 0x50 % 128) * 2 * (f / 1000000) + 50
        < 2 ^ 32 →
      getQPISpeed H hw f =
        round100
          ((pciConfigRead32 hw (H.PCIADDR (findNhmBus H hw) 2 1) 0x50 % 128) * 2 *
            (f / 1000000))) := by
  constructor
  · rintro ⟨h1, h2, h3⟩
    have h0 : ¬ findNhmBus H hw ≠ 0 := fun h =>
      ((findNhmBus_ne_zero_iff H hw).mp h).elim h1 (fun h' => h'.elim h2 h3)
    unfold getQPISpeed
    simp only
    rw [if_neg h0]
  · intro hq hraw
    have hbus := (findNhmBus_ne_zero_iff H hw).mpr hq
    rw [← qpiMult_eq_mod] at hraw ⊢
    unfold getQPISpeed
    simp only
    rw [if_pos hbus]
    exact qpiSpeedOnBus_eq_round100 H hw _ f hraw

/-- C6 amended, at an empty configuration space (result 0) and at multiplier 24 on
bus 0xFF with a bus of 133333333 Hz (raw speed 6384, result 6400). -/
theorem getQPISpeed_value_witness :
    getQPISpeed stdHeaders (nhmChipset [] (fun _ => 24)) 133333333 = 0 ∧
    getQPISpeed stdHeaders (nhmChipset [0xFF] (fun _ => 24)) 133333333 = 6400 :=
  ⟨(getQPISpeed_value stdHeaders (nhmChipset [] (fun _ => 24)) 133333333).1 (by decide),
    ((getQPISpeed_value stdHeaders (nhmChipset [0xFF] (fun _ => 24)) 133333333).2
      (by decide) (by decide)).trans (by decide)⟩

/-! ## Lemmas on initCPUStruct -/

theorem initCPUStruct_eq (H : Headers) (hw : Hardware) (r : CPUInfo) :
    initCPUStruct H hw r = resolveFrequencies H hw (preResolve H hw r) := rfl

theorem resolveFrequencies_eq (H : Headers) (hw : Hardware) (z : CPUInfo) :
    resolveFrequencies H hw z =
      finishCPUStruct (getTSCFrequency hw)
        (dispatchPath H hw (getTSCFrequency hw) { z with Type_ := 0x301 } initLocals).1
        (dispatchPath H hw (getTSCFrequency hw) { z with Type_ := 0x301 } initLocals).2 := rfl

theorem dispatchPath_none (H : Headers) (hw : Hardware) (tsc : Nat) (r : CPUInfo) (l : Locals)
    (h : ¬ intelModelTest H r) : dispatchPath H hw tsc r l = (r, l) := by
  unfold dispatchPath
  by_cases hv : r.Vendor = H.CPU_VENDOR_INTEL
  · rw [if_pos hv, if_neg (fun ht => h ⟨hv, ht⟩)]
  · rw [if_neg hv]

theorem dispatchPath_modern (H : Headers) (hw : Hardware) (tsc : Nat) (r : CPUInfo) (l : Locals)
    (h : intelModelTest H r) (hb : hiBitOf H r.Model ≠ 0) :
    dispatchPath H hw tsc r l = modernPath H hw (hiBitOf H r.Model) tsc r l := by
  unfold dispatchPath
  simp only
  rw [if_pos h.1, if_pos h.2, if_pos hb]

theorem dispatchPath_legacy (H : Headers) (hw : Hardware) (tsc : Nat) (r : CPUInfo) (l : Locals)
    (h : intelModelTest H r) (hb : hiBitOf H r.Model = 0) :
    dispatchPath H hw tsc r l = legacyPath H hw tsc r l := by
  unfold dispatchPath
  simp only
  rw [if_pos h.1, if_pos h.2, if_neg (not_not.mpr hb)]

/-- The fields that lines 267 to 485 leave as they were. -/
theorem resolveFrequencies_frame (H : Headers) (hw : Hardware) (z : CPUInfo) :
    (resolveFrequencies H hw z).ID = z.ID ∧
    (resolveFrequencies H hw z).Vendor = z.Vendor ∧
    (resolveFrequencies H hw z).Signature = z.Signature ∧
    (resolveFrequencies H hw z).Stepping = z.Stepping ∧
    (resolveFrequencies H hw z).Model = z.Model ∧
    (resolveFrequencies H hw z).Family = z.Family ∧
    (resolveFrequencies H hw z).ExtModel = z.ExtModel ∧
    (resolveFrequencies H hw z).ExtFamily = z.ExtFamily ∧
    (resolveFrequencies H hw z).BrandString = z.BrandString ∧
    (resolveFrequencies H hw z).Mobile = z.Mobile ∧
    (resolveFrequencies H hw z).Features = z.Features := by
  rw [resolveFrequencies_eq]
  by_cases h : intelModelTest H { z with Type_ := 0x301 }
  · by_cases hb : hiBitOf H z.Model = 0
    · rw [dispatchPath_legacy H hw _ _ _ h hb]
      exact ⟨rfl, rfl, rfl, rfl, rfl, rfl, rfl, rfl, rfl, rfl, rfl⟩
    · rw [dispatchPath_modern H hw _ _ _ h hb]
      exact ⟨rfl, rfl, rfl, rfl, rfl, rfl, rfl, rfl, rfl, rfl, rfl⟩
  · rw [dispatchPath_none H hw _ _ _ h]
    exact ⟨rfl, rfl, rfl, rfl, rfl, rfl, rfl, rfl, rfl, rfl, rfl⟩

theorem finishCPUStruct_FSB (tsc : Nat) (r : CPUInfo) (l : Locals) :
    (finishCPUStruct tsc r l).FSBFrequency =
      if l.fsbFrequency = 0 then DEFAULT_FSB * 1000 else l.fsbFrequency := rfl

theorem finishCPUStruct_CPU (tsc : Nat) (r : CPUInfo) (l : Locals) :
    (finishCPUStruct tsc r l).CPUFrequency =
      if l.fsbFrequency = 0 then tsc else l.cpuFrequency := rfl

theorem modernPath_fsb (H : Headers) (hw : Hardware) (hb tsc : Nat) (r : CPUInfo) (l : Locals) :
    (modernPath H hw hb tsc r l).2.fsbFrequency =
      if (modernPath H hw hb tsc r l).2.currcoef ≠ 0 then
        tsc / (modernPath H hw hb tsc r l).2.currcoef
      else l.fsbFrequency := rfl

theorem legacyPath_fsb (H : Headers) (hw : Hardware) (tsc : Nat) (r : CPUInfo) (l : Locals) :
    (legacyPath H hw tsc r l).2.fsbFrequency =
      if (legacyPath H hw tsc r l).2.maxcoef ≠ 0 then
        if (legacyPath H hw tsc r l).2.maxdiv ≠ 0 then
          tsc * 2 % 2 ^ 64 / ((legacyPath H hw tsc r l).2.maxcoef * 2 + 1)
        else tsc / (legacyPath H hw tsc r l).2.maxcoef
      else l.fsbFrequency := rfl

/-- The record after `initCPUStruct` on each of the three ways through the
dispatch of lines 274 to 455. -/
theorem initCPUStruct_cases (H : Headers) (hw : Hardware) (r : CPUInfo) :
    (¬ intelModelTest H (initCPUStruct H hw r) ∧
      initCPUStruct H hw r =
        finishCPUStruct (getTSCFrequency hw)
          { preResolve H hw r with Type_ := 0x301 } initLocals) ∨
    (intelModelTest H (initCPUStruct H hw r) ∧
      hiBitOf H (initCPUStruct H hw r).Model ≠ 0 ∧
      initCPUStruct H hw r =
        finishCPUStruct (getTSCFrequency hw)
          (modernPath H hw (hiBitOf H (initCPUStruct H hw r).Model) (getTSCFrequency hw)
            { preResolve H hw r with Type_ := 0x301 } initLocals).1
          (modernPath H hw (hiBitOf H (initCPUStruct H hw r).Model) (getTSCFrequency hw)
            { preResolve H hw r with Type_ := 0x301 } initLocals).2) ∨
    (intelModelTest H (initCPUStruct H hw r) ∧
      hiBitOf H (initCPUStruct H hw r).Model = 0 ∧
      initCPUStruct H hw r =
        finishCPUStruct (getTSCFrequency hw)
          (legacyPath H hw (getTSCFrequency hw)
            { preResolve H hw r with Type_ := 0x301 } initLocals).1
          (legacyPath H hw (getTSCFrequency hw)
            { preResolve H hw r with Type_ := 0x301 } initLocals).2) := by
  obtain ⟨-, hV, -, -, hM, hF, -⟩ := resolveFrequencies_frame H hw (preResolve H hw r)
  have hi : intelModelTest H (initCPUStruct H hw r) ↔
      intelModelTest H { preResolve H hw r with Type_ := 0x301 } := by
    unfold intelModelTest familyModelTest
    rw [initCPUStruct_eq, hV, hM, hF]
  have hm : (initCPUStruct H hw r).Model = (preResolve H hw r).Model := hM
  rw [hi, hm]
  rw [initCPUStruct_eq, resolveFrequencies_eq]
  by_cases h : intelModelTest H { preResolve H hw r with Type_ := 0x301 }
  · by_cases hb : hiBitOf H (preResolve H hw r).Model = 0
    · right; right
      exact ⟨h, hb, by rw [dispatchPath_legacy H hw _ _ _ h hb]⟩
    · right; left
      exact ⟨h, hb, by rw [dispatchPath_modern H hw _ _ _ h hb]⟩
  · left
    exact ⟨h, by rw [dispatchPath_none H hw _ _ _ h]⟩

/-! ## Lemmas on idempotence -/

theorem setBrandString_frame (H : Headers) (hw : Hardware) (x : CPUInfo) :
    setBrandString H hw x =
      { x with
        Mobile := (setBrandString H hw x).Mobile
        BrandString := (setBrandString H hw x).BrandString } := by
  unfold setBrandString
  split <;> rfl

theorem cacheCPUIDData_ID_idem (H : Headers) (hw : Hardware) (x : CPUInfo) :
    (cacheCPUIDData H hw (cacheCPUIDData H hw x)).ID = (cacheCPUIDData H hw x).ID := by
  funext k
  simp only [cacheCPUIDData, getCachedCPUID, Function.update_same]
  split_ifs <;> simp [Function.update] <;> split_ifs <;> simp_all

theorem cacheCPUIDData_ID_congr (H : Headers) (hw : Hardware) (x y : CPUInfo)
    (h : x.ID = y.ID) : (cacheCPUIDData H hw x).ID = (cacheCPUIDData H hw y).ID := by
  cases x; cases y
  simp only at h
  subst h
  rfl

theorem readBrandString_idem (H : Headers) (hw : Hardware) (x : CPUInfo) :
    readBrandString H hw (readBrandString H hw x) = readBrandString H hw x := by
  have hM : strstr [] (lit " M ") = false := by decide
  have h0 : ∀ a b : List Nat, strncmpIsZero a b 0 = true := fun a b => by
    unfold strncmpIsZero; rfl
  apply CPUInfo.ext <;> try rfl
  · show (readBrandString H hw (readBrandString H hw x)).BrandString =
      (readBrandString H hw x).BrandString
    simp only [readBrandString, strlcpy]
    by_cases hs : H.sizeofBrandString = 0
    · simp [hs, h0]
    · simp [hs]
  · show (readBrandString H hw (readBrandString H hw x)).Mobile =
      (readBrandString H hw x).Mobile
    simp only [readBrandString, strlcpy]
    generalize strstr (cstring (regBytes (do_cpuid hw 0x80000002) ++ hw.afterReg))
      (lit "Atom") = a
    generalize strstr (cstring (regBytes (do_cpuid hw 0x80000002) ++ hw.afterReg))
      (lit "Mobile") = b
    by_cases hs : H.sizeofBrandString = 0
    · simp only [hs, if_true, Nat.zero_min, h0]
      generalize strstr x.BrandString (lit " M ") = c
      cases a <;> cases b <;> cases c <;> cases x.Mobile <;> simp [hM]
    · simp only [hs, if_false]
      generalize strstr (List.take (H.sizeofBrandString - 1)
        (List.dropWhile (fun c => c == 32)
          (cstring (regBytes (do_cpuid hw 0x80000002) ++ regBytes (do_cpuid hw 0x80000003) ++
            regBytes (do_cpuid hw 0x80000004) ++ hw.afterStr)))) (lit " M ") = c
      cases a <;> cases b <;> cases c <;> cases x.Mobile <;> rfl

theorem setBrandString_idem (H : Headers) (hw : Hardware) (x : CPUInfo) :
    setBrandString H hw (setBrandString H hw x) = setBrandString H hw x := by
  unfold setBrandString
  by_cases h : (x.ID H.LEAF_80).eax ≥ 0x80000004
  · rw [if_pos h]
    have h2 : ((readBrandString H hw x).ID H.LEAF_80).eax ≥ 0x80000004 := h
    rw [if_pos h2, readBrandString_idem]
  · rw [if_neg h, if_neg h]

theorem setBrandString_congr (H : Headers) (hw : Hardware) (x y : CPUInfo)
    (h1 : x.ID = y.ID) (h2 : x.Mobile = y.Mobile) (h3 : x.BrandString = y.BrandString) :
    (setBrandString H hw x).Mobile = (setBrandString H hw y).Mobile ∧
    (setBrandString H hw x).BrandString = (setBrandString H hw y).BrandString := by
  cases x; cases y
  simp only at h1 h2 h3
  subst h1 h2 h3
  unfold setBrandString
  simp only
  split <;> exact ⟨rfl, rfl⟩

theorem lor4_idem (f a b c d : Nat) :
    (f ||| a ||| b ||| c ||| d) ||| a ||| b ||| c ||| d = f ||| a ||| b ||| c ||| d := by
  apply Nat.eq_of_testBit_eq
  intro i
  simp only [Nat.testBit_lor]
  cases f.testBit i <;> cases a.testBit i <;> cases b.testBit i <;> cases c.testBit i <;>
    cases d.testBit i <;> rfl

theorem resolveFrequencies_idem (H : Headers) (hw : Hardware) (x : CPUInfo) :
    resolveFrequencies H hw (resolveFrequencies H hw x) = resolveFrequencies H hw x := by
  obtain ⟨-, hV, -, -, hM, hF, -⟩ := resolveFrequencies_frame H hw x
  have hi : intelModelTest H { resolveFrequencies H hw x with Type_ := 0x301 } ↔
      intelModelTest H { x with Type_ := 0x301 } := by
    unfold intelModelTest familyModelTest
    simp only [hV, hM, hF]
  rw [resolveFrequencies_eq H hw (resolveFrequencies H hw x)]
  by_cases h : intelModelTest H { x with Type_ := 0x301 }
  · by_cases hb : hiBitOf H x.Model = 0
    · rw [dispatchPath_legacy H hw _ _ _ (hi.mpr h) (by rw [← hb]; exact congrArg _ hM)]
      rw [resolveFrequencies_eq, dispatchPath_legacy H hw _ _ _ h hb]
      rfl
    · rw [dispatchPath_modern H hw _ _ _ (hi.mpr h)
        (by intro h0; apply hb; rw [← h0]; exact (congrArg _ hM).symm)]
      rw [show ({ resolveFrequencies H hw x with Type_ := 0x301 } : CPUInfo).Model = x.Model
        from hM]
      rw [resolveFrequencies_eq, dispatchPath_modern H hw _ _ _ h hb]
      rfl
  · rw [dispatchPath_none H hw _ _ _ (fun h' => h (hi.mp h'))]
    rw [resolveFrequencies_eq, dispatchPath_none H hw _ _ _ h]
    rfl

theorem setBrandString_fields (H : Headers) (hw : Hardware) (x : CPUInfo) :
    (setBrandString H hw x).ID = x.ID ∧
    (setBrandString H hw x).Vendor = x.Vendor ∧
    (setBrandString H hw x).Signature = x.Signature ∧
    (setBrandString H hw x).Stepping = x.Stepping ∧
    (setBrandString H hw x).Model = x.Model ∧
    (setBrandString H hw x).Family = x.Family ∧
    (setBrandString H hw x).ExtModel = x.ExtModel ∧
    (setBrandString H hw x).ExtFamily = x.ExtFamily ∧
    (setBrandString H hw x).Features = x.Features ∧
    (setBrandString H hw x).NumCores = x.NumCores ∧
    (setBrandString H hw x).NumThreads = x.NumThreads := by
  rw [setBrandString_frame]
  exact ⟨rfl, rfl, rfl, rfl, rfl, rfl, rfl, rfl, rfl, rfl, rfl⟩

theorem cacheCPUIDData_stable (H : Headers) (hw : Hardware) (x y : CPUInfo)
    (hID : x.ID = (cacheCPUIDData H hw y).ID) : cacheCPUIDData H hw x = x := by
  have h1 : (cacheCPUIDData H hw x).ID = x.ID := by
    rw [cacheCPUIDData_ID_congr H hw x _ hID, cacheCPUIDData_ID_idem, hID]
  have h2 : cacheCPUIDData H hw x = { x with ID := (cacheCPUIDData H hw x).ID } := rfl
  rw [h2, h1]

theorem setIdentification_stable (H : Headers) (x y : CPUInfo) (hID : x.ID = y.ID)
    (h1 : x.Vendor = (setIdentification H y).Vendor)
    (h2 : x.Signature = (setIdentification H y).Signature)
    (h3 : x.Stepping = (setIdentification H y).Stepping)
    (h4 : x.Model = (setIdentification H y).Model)
    (h5 : x.Family = (setIdentification H y).Family)
    (h6 : x.ExtModel = (setIdentification H y).ExtModel)
    (h7 : x.ExtFamily = (setIdentification H y).ExtFamily) :
    setIdentification H x = x := by
  cases x
  simp only at hID h1 h2 h3 h4 h5 h6 h7
  subst hID h1 h2 h3 h4 h5 h6 h7
  rfl

theorem setBrandString_stable (H : Headers) (hw : Hardware) (x y : CPUInfo)
    (hID : x.ID = y.ID) (hM : x.Mobile = (setBrandString H hw y).Mobile)
    (hB : x.BrandString = (setBrandString H hw y).BrandString) :
    setBrandString H hw x = x := by
  have hc := setBrandString_congr H hw x (setBrandString H hw y)
    (hID.trans (setBrandString_fields H hw y).1.symm) hM hB
  rw [setBrandString_idem] at hc
  rw [setBrandString_frame H hw x, hc.1, hc.2, ← hM, ← hB]

theorem setupFeatures_stable (H : Headers) (x y : CPUInfo) (hID : x.ID = y.ID)
    (hF : x.Features = (setupFeatures H y).Features) : setupFeatures H x = x := by
  cases x
  simp only at hID hF
  subst hID hF
  apply CPUInfo.ext <;> try rfl
  exact lor4_idem _ _ _ _ _

theorem preResolve_counts (H : Headers) (hw : Hardware) (r : CPUInfo) :
    (preResolve H hw r).NumCores = r.NumCores ∧ (preResolve H hw r).NumThreads = r.NumThreads := by
  obtain ⟨-, -, -, -, -, -, -, -, -, hc, ht⟩ :=
    setBrandString_fields H hw (setIdentification H (cacheCPUIDData H hw r))
  exact ⟨hc, ht⟩

theorem bitfield32_31_26_lt (x : Nat) : bitfield32 x 31 26 < 64 :=
  Nat.mod_lt _ (by norm_num)

/-! ## Claims on initCPUStruct -/

/-- C8: whatever the simulated registers, timer, configuration space and prior
record, the bus frequency stored by `initCPUStruct` is not zero. -/
theorem initCPUStruct_FSBFrequency_ne_zero (H : Headers) (hw : Hardware) (r : CPUInfo) :
    (initCPUStruct H hw r).FSBFrequency ≠ 0 := by
  rw [initCPUStruct_eq, resolveFrequencies_eq, finishCPUStruct_FSB]
  split
  · decide
  · assumption

/-- C7: when no multiplier is resolved (the stored vendor is not Intel, or the
family and model test fails, or the model is on the modern path and the
multiplier after flex clamping is 0, or the model is on the legacy path and the
maximum multiplier is 0), `initCPUStruct` stores the bus frequency 100000000
and a CPU frequency equal to the tick rate returned by `getTSCFrequency`. -/
theorem initCPUStruct_default_fallback (H : Headers) (hw : Hardware) (r : CPUInfo)
    (h : (initCPUStruct H hw r).Vendor ≠ H.CPU_VENDOR_INTEL ∨
      ¬ familyModelTest (initCPUStruct H hw r) ∨
      (hiBitOf H (initCPUStruct H hw r).Model ≠ 0 ∧ (initCPUStruct H hw r).CurrCoef = 0) ∨
      (hiBitOf H (initCPUStruct H hw r).Model = 0 ∧ (initCPUStruct H hw r).MaxCoef = 0)) :
    (initCPUStruct H hw r).FSBFrequency = 100000000 ∧
    (initCPUStruct H hw r).CPUFrequency = getTSCFrequency hw ∧
    (initCPUStruct H hw r).TSCFrequency = getTSCFrequency hw := by
  rcases initCPUStruct_cases H hw r with ⟨-, he⟩ | ⟨hi, hb, he⟩ | ⟨hi, hb, he⟩
  · rw [he]
    exact ⟨rfl, rfl, rfl⟩
  · have hcc : (initCPUStruct H hw r).CurrCoef = 0 := by
      rcases h with h | h | h | h
      · exact absurd hi.1 h
      · exact absurd hi.2 h
      · exact h.2
      · exact absurd h.1 hb
    rw [he] at hcc ⊢
    have hcc2 : (modernPath H hw (hiBitOf H (initCPUStruct H hw r).Model) (getTSCFrequency hw)
        { preResolve H hw r with Type_ := 0x301 } initLocals).2.currcoef = 0 := hcc
    have hfsb := modernPath_fsb H hw (hiBitOf H (initCPUStruct H hw r).Model)
      (getTSCFrequency hw) { preResolve H hw r with Type_ := 0x301 } initLocals
    rw [hcc2, if_neg (by simp)] at hfsb
    refine ⟨?_, ?_, rfl⟩
    · rw [finishCPUStruct_FSB, hfsb]; rfl
    · rw [finishCPUStruct_CPU, hfsb]; rfl
  · have hmc : (initCPUStruct H hw r).MaxCoef = 0 := by
      rcases h with h | h | h | h
      · exact absurd hi.1 h
      · exact absurd hi.2 h
      · exact absurd hb h.1
      · exact h.2
    rw [he] at hmc ⊢
    have hmc2 : (legacyPath H hw (getTSCFrequency hw)
        { preResolve H hw r with Type_ := 0x301 } initLocals).2.maxcoef = 0 := hmc
    have hfsb := legacyPath_fsb H hw (getTSCFrequency hw)
      { preResolve H hw r with Type_ := 0x301 } initLocals
    rw [hmc2, if_neg (by simp)] at hfsb
    refine ⟨?_, ?_, rfl⟩
    · rw [finishCPUStruct_FSB, hfsb]; rfl
    · rw [finishCPUStruct_CPU, hfsb]; rfl

/-- C7 at a Nehalem-class machine whose platform-info register reads 0: the
multiplier is 0, the bus frequency is the default and the CPU frequency the
tick rate 133333333. -/
theorem initCPUStruct_default_fallback_witness :
    (hiBitOf stdHeaders (initCPUStruct stdHeaders (nehalemMachine 0x00040008) zeroCPUInfo).Model ≠ 0 ∧
      (initCPUStruct stdHeaders (nehalemMachine 0x00040008) zeroCPUInfo).CurrCoef = 0) ∧
    (initCPUStruct stdHeaders (nehalemMachine 0x00040008) zeroCPUInfo).FSBFrequency = 100000000 ∧
    (initCPUStruct stdHeaders (nehalemMachine 0x00040008) zeroCPUInfo).CPUFrequency = 133333333 :=
  ⟨by decide,
    (initCPUStruct_default_fallback stdHeaders (nehalemMachine 0x00040008) zeroCPUInfo
      (Or.inr (Or.inr (Or.inl (by decide))))).1,
    (initCPUStruct_default_fallback stdHeaders (nehalemMachine 0x00040008) zeroCPUInfo
      (Or.inr (Or.inr (Or.inl (by decide))))).2.1.trans (by decide)⟩

/-- C9, falsified as stated: on a Pentium M class machine (legacy path) leaf 1
reports no logical-processor count and leaf 4 is absent, so `initCPUStruct`
stores core count 1 and thread count 0; on a machine of another vendor the
counts of the zero-initialised record stay 0 and 0. -/
theorem initCPUStruct_topology_counterexample :
    ((initCPUStruct stdHeaders (pentiumMMachine 0x0A000A00) zeroCPUInfo).NumCores = 1 ∧
      (initCPUStruct stdHeaders (pentiumMMachine 0x0A000A00) zeroCPUInfo).NumThreads = 0 ∧
      ¬ ((initCPUStruct stdHeaders (pentiumMMachine 0x0A000A00) zeroCPUInfo).NumThreads ≥
          (initCPUStruct stdHeaders (pentiumMMachine 0x0A000A00) zeroCPUInfo).NumCores ∧
        (initCPUStruct stdHeaders (pentiumMMachine 0x0A000A00) zeroCPUInfo).NumCores ≥ 1)) ∧
    ((initCPUStruct stdHeaders otherVendorMachine zeroCPUInfo).NumCores = 0 ∧
      ¬ ((initCPUStruct stdHeaders otherVendorMachine zeroCPUInfo).NumThreads ≥
          (initCPUStruct stdHeaders otherVendorMachine zeroCPUInfo).NumCores ∧
        (initCPUStruct stdHeaders otherVendorMachine zeroCPUInfo).NumCores ≥ 1)) := by
  decide

/-- C9, amended: after `initCPUStruct`, on the legacy path the core count is bits
26 to 31 of the cached leaf-4 `eax` plus one, hence at least 1, and the thread
count is bits 16 to 23 of the cached leaf-1 `ebx`; on the modern path the core
count is bits 16 to `hiBit` and the thread count bits 0 to 15 of the
core/thread-count register; on every other input both counts are those of the
prior record. -/
theorem initCPUStruct_topology (H : Headers) (hw : Hardware) (r : CPUInfo) :
    (intelModelTest H (initCPUStruct H hw r) →
      hiBitOf H (initCPUStruct H hw r).Model = 0 →
      (initCPUStruct H hw r).NumCores =
          bitfield32 ((initCPUStruct H hw r).ID H.LEAF_4).eax 31 26 + 1 ∧
        1 ≤ (initCPUStruct H hw r).NumCores ∧
        (initCPUStruct H hw r).NumThreads =
          bitfield32 ((initCPUStruct H hw r).ID H.LEAF_1).ebx 23 16) ∧
    (intelModelTest H (initCPUStruct H hw r) →
      hiBitOf H (initCPUStruct H hw r).Model ≠ 0 →
      (initCPUStruct H hw r).NumCores =
          bitfield32 (rdmsr64 hw H.MSR_CORE_THREAD_COUNT)
            (hiBitOf H (initCPUStruct H hw r).Model) 16 ∧
        (initCPUStruct H hw r).NumThreads =
          bitfield32 (rdmsr64 hw H.MSR_CORE_THREAD_COUNT) 15 0) ∧
    (¬ intelModelTest H (initCPUStruct H hw r) →
      (initCPUStruct H hw r).NumCores = r.NumCores ∧
        (initCPUStruct H hw r).NumThreads = r.NumThreads) := by
  have eID : (initCPUStruct H hw r).ID = (preResolve H hw r).ID :=
    (resolveFrequencies_frame H hw (preResolve H hw r)).1
  refine ⟨fun hi hb => ?_, fun hi hb => ?_, fun hn => ?_⟩
  · rcases initCPUStruct_cases H hw r with ⟨hn, -⟩ | ⟨-, hb2, -⟩ | ⟨-, -, he⟩
    · exact absurd hi hn
    · exact absurd hb hb2
    · have hc : (initCPUStruct H hw r).NumCores =
          (bitfield32 ((preResolve H hw r).ID H.LEAF_4).eax 31 26 + 1) % 2 ^ 32 := by
        rw [he]; rfl
      have ht : (initCPUStruct H hw r).NumThreads =
          bitfield32 ((preResolve H hw r).ID H.LEAF_1).ebx 23 16 := by
        rw [he]; rfl
      have hlt := bitfield32_31_26_lt ((preResolve H hw r).ID H.LEAF_4).eax
      rw [Nat.mod_eq_of_lt (by omega)] at hc
      rw [eID, hc, ht]
      exact ⟨rfl, Nat.le_add_left 1 _, rfl⟩
  · rcases initCPUStruct_cases H hw r with ⟨hn, -⟩ | ⟨-, -, he⟩ | ⟨-, hb2, -⟩
    · exact absurd hi hn
    · constructor
      · conv_lhs => rw [he]
        rfl
      · conv_lhs => rw [he]
        rfl
    · exact absurd hb2 hb
  · rcases initCPUStruct_cases H hw r with ⟨-, he⟩ | ⟨hi, -, -⟩ | ⟨hi, -, -⟩
    · obtain ⟨hc, ht⟩ := preResolve_counts H hw r
      constructor
      · rw [he]; exact hc
      · rw [he]; exact ht
    · exact absurd hi hn
    · exact absurd hi hn

/-- C9 amended, on the three ways through the dispatch: a Pentium M class machine
(legacy path, counts 1 and 0), a Nehalem-class machine whose register reports 4
cores and 8 threads (modern path), and a machine of another vendor (counts of
the prior record). -/
theorem initCPUStruct_topology_witness :
    ((initCPUStruct stdHeaders (pentiumMMachine 0x0A000A00) zeroCPUInfo).NumCores = 1 ∧
      (initCPUStruct stdHeaders (pentiumMMachine 0x0A000A00) zeroCPUInfo).NumThreads = 0) ∧
    ((initCPUStruct stdHeaders (nehalemMachine 0x00040008) zeroCPUInfo).NumCores = 4 ∧
      (initCPUStruct stdHeaders (nehalemMachine 0x00040008) zeroCPUInfo).NumThreads = 8) ∧
    ((initCPUStruct stdHeaders otherVendorMachine { zeroCPUInfo with NumCores := 2 }).NumCores = 2 ∧
      (initCPUStruct stdHeaders otherVendorMachine
        { zeroCPUInfo with NumCores := 2 }).NumThreads = 0) :=
  ⟨(fun h => ⟨h.1.trans (by decide), h.2.2.trans (by decide)⟩)
      ((initCPUStruct_topology stdHeaders (pentiumMMachine 0x0A000A00) zeroCPUInfo).1
        (by decide) (by decide)),
    (fun h => ⟨h.1.trans (by decide), h.2.trans (by decide)⟩)
      ((initCPUStruct_topology stdHeaders (nehalemMachine 0x00040008) zeroCPUInfo).2.1
        (by decide) (by decide)),
    (initCPUStruct_topology stdHeaders otherVendorMachine { zeroCPUInfo with NumCores := 2 }).2.2
      (by decide)⟩

/-- A second run that finds the same registers and the same memory after `reg`
and from `str[48]` on leaves every field of the record as the first run left
it.  Two consecutive calls need not find the same memory there. -/
theorem initCPUStruct_idempotent (H : Headers) (hw : Hardware) (r : CPUInfo) :
    initCPUStruct H hw (initCPUStruct H hw r) = initCPUStruct H hw r := by
  obtain ⟨eID, eV, eSig, eSt, eMo, eFa, eEM, eEF, eB, eM, eF⟩ :=
    resolveFrequencies_frame H hw (preResolve H hw r)
  obtain ⟨bID, bV, bSig, bSt, bMo, bFa, bEM, bEF, -, -, -⟩ :=
    setBrandString_fields H hw (setIdentification H (cacheCPUIDData H hw r))
  have h1 : cacheCPUIDData H hw (initCPUStruct H hw r) = initCPUStruct H hw r :=
    cacheCPUIDData_stable H hw _ r (eID.trans bID)
  have h2 : setIdentification H (initCPUStruct H hw r) = initCPUStruct H hw r :=
    setIdentification_stable H _ (cacheCPUIDData H hw r) (eID.trans bID) (eV.trans bV)
      (eSig.trans bSig) (eSt.trans bSt) (eMo.trans bMo) (eFa.trans bFa) (eEM.trans bEM)
      (eEF.trans bEF)
  have h3 : setBrandString H hw (initCPUStruct H hw r) = initCPUStruct H hw r :=
    setBrandString_stable H hw _ (setIdentification H (cacheCPUIDData H hw r))
      (eID.trans bID) eM eB
  have h4 : setupFeatures H (initCPUStruct H hw r) = initCPUStruct H hw r :=
    setupFeatures_stable H _ (setBrandString H hw (setIdentification H (cacheCPUIDData H hw r)))
      eID eF
  have h5 : resolveFrequencies H hw (initCPUStruct H hw r) = initCPUStruct H hw r :=
    resolveFrequencies_idem H hw _
  have hstep : initCPUStruct H hw (initCPUStruct H hw r) =
      resolveFrequencies H hw (setupFeatures H (setBrandString H hw
        (setIdentification H (cacheCPUIDData H hw (initCPUStruct H hw r))))) := rfl
  rw [hstep, h1, h2, h3, h4, h5]

/-- C10, the code at the failing input: on an Atom class machine whose brand text
is right justified, with `str` right after `reg` in the stack frame, the first
call, on a stack of zero bytes, reads "Atom" nowhere from `reg` on and leaves
the mobile flag false.  The second call has the same registers, timer and
configuration space, but `str[16..47]` still holds what the first call copied
there: the search at `reg` runs through `str`, meets "Atom", and sets the mobile
flag, so the record after the second run is not the record after the first. -/
theorem initCPUStruct_second_call_differs :
    ((secondCall atomMachine).cpuid = (firstCall atomMachine).cpuid ∧
      (secondCall atomMachine).cpuid2 = (firstCall atomMachine).cpuid2 ∧
      (secondCall atomMachine).msr = (firstCall atomMachine).msr ∧
      (secondCall atomMachine).pci16 = (firstCall atomMachine).pci16 ∧
      (secondCall atomMachine).pci32 = (firstCall atomMachine).pci32 ∧
      (secondCall atomMachine).pollCount = (firstCall atomMachine).pollCount ∧
      (secondCall atomMachine).tscStart = (firstCall atomMachine).tscStart ∧
      (secondCall atomMachine).tscEnd = (firstCall atomMachine).tscEnd) ∧
    strstr (firstChunk (firstCall atomMachine)) (lit "Atom") = false ∧
    strstr (firstChunk (secondCall atomMachine)) (lit "Atom") = true ∧
    (initCPUStruct stdHeaders (firstCall atomMachine) zeroCPUInfo).Mobile = false ∧
    (initCPUStruct stdHeaders (secondCall atomMachine)
      (initCPUStruct stdHeaders (firstCall atomMachine) zeroCPUInfo)).Mobile = true ∧
    initCPUStruct stdHeaders (secondCall atomMachine)
        (initCPUStruct stdHeaders (firstCall atomMachine) zeroCPUInfo) ≠
      initCPUStruct stdHeaders (firstCall atomMachine) zeroCPUInfo :=
  ⟨⟨rfl, rfl, rfl, rfl, rfl, rfl, rfl, rfl⟩, by decide, by decide, by decide, by decide,
    fun h => absurd (congrArg CPUInfo.Mobile h) (by decide)⟩

/-! ## Lemmas on the bit fields of the model-specific registers -/

theorem shift_and_eq_bitfield32 (x l w : Nat) :
    (x >>> l) &&& (2 ^ w - 1) = bitfield32 x (l + w - 1) l ∨ w = 0 := by
  rcases Nat.eq_zero_or_pos w with h | h
  · exact Or.inr h
  · left
    unfold bitfield32
    rw [Nat.and_pow_two_sub_one_eq_mod, Nat.shiftRight_eq_div_pow]
    congr 2
    omega

theorem platform_info_field (x : Nat) : ((x >>> 8) &&& 0xff) % 2 ^ 8 = bitfield32 x 15 8 := by
  have h := shift_and_eq_bitfield32 x 8 8
  simp only [Nat.reduceAdd, Nat.reduceSub, Nat.reducePow, OfNat.ofNat_ne_zero, or_false] at h
  rw [h]
  exact Nat.mod_eq_of_lt (Nat.mod_lt _ (by norm_num))

/-! ## Claims on the arithmetic of getTSCFrequency -/

/-- C19: on the branch of `getTSCFrequency` that scales the delta, the product
`tscDelta * 1000` is below `2 ^ 64`, so the 64-bit computation does not wrap and
the result is the exact quotient of `tscDelta * 1000` by 30; every result is at
most `2 ^ 32 * 1000 / 30 = 143165576533`. -/
theorem getTSCFrequency_headroom (hw : Hardware) :
    (¬ calibrationLoop hw 10 > 2 ^ 32 →
      calibrationLoop hw 10 * 1000 < 2 ^ 64 ∧
      getTSCFrequency hw = calibrationLoop hw 10 * 1000 / 30) ∧
    getTSCFrequency hw ≤ 2 ^ 32 * 1000 / 30 ∧
    2 ^ 32 * 1000 / 30 = 143165576533 := by
  refine ⟨fun h => ?_, ?_, by norm_num⟩
  · have hle : calibrationLoop hw 10 ≤ 2 ^ 32 := Nat.le_of_not_lt h
    refine ⟨by omega, ?_⟩
    unfold getTSCFrequency
    simp only
    rw [if_neg h, Nat.mod_eq_of_lt (by omega)]
  · have := getTSCFrequency_le hw
    omega

/-- C19 at `rampTimer`: the final delta is 1205, the product 1205000 and the
result 40166. -/
theorem getTSCFrequency_headroom_witness :
    calibrationLoop rampTimer 10 = 1205 ∧ getTSCFrequency rampTimer = 40166 :=
  ⟨by decide,
    ((getTSCFrequency_headroom rampTimer).1 (by decide)).2.trans (by decide)⟩

/-! ## Lemmas on the modern path -/

theorem flex_enable_bit (x : Nat) : (x >>> 16) &&& 0x01 ≠ 0 ↔ bitfield32 x 16 16 = 1 := by
  have h : (x >>> 16) &&& 0x01 = x / 2 ^ 16 % 2 := by
    rw [Nat.shiftRight_eq_div_pow]
    exact Nat.and_pow_two_sub_one_eq_mod _ 1
  rw [h]
  unfold bitfield32
  simp only [Nat.reduceAdd, Nat.reduceSub, pow_one]
  omega

theorem flex_ratio_field (x : Nat) : (x >>> 8) &&& 0xff = bitfield32 x 15 8 := by
  have h := shift_and_eq_bitfield32 x 8 8
  simpa using h

theorem bitfield32_15_8_lt (x : Nat) : bitfield32 x 15 8 < 2 ^ 8 :=
  Nat.mod_lt _ (by norm_num)

/-- The multiplier left in `currcoef` by the modern path is the resolved
multiplier of the specification. -/
theorem modernPath_currcoef (H : Headers) (hw : Hardware) (hb tsc : Nat) (r : CPUInfo)
    (l : Locals) : (modernPath H hw hb tsc r l).2.currcoef = resolvedMultiplier H hw := by
  have h : (modernPath H hw hb tsc r l).2.currcoef =
      if (rdmsr64 hw H.MSR_FLEX_RATIO >>> 16) &&& 0x01 ≠ 0 then
        if ((rdmsr64 hw H.MSR_PLATFORM_INFO >>> 8) &&& 0xff) % 2 ^ 8 >
            (rdmsr64 hw H.MSR_FLEX_RATIO >>> 8) &&& 0xff then
          ((rdmsr64 hw H.MSR_FLEX_RATIO >>> 8) &&& 0xff) % 2 ^ 8
        else ((rdmsr64 hw H.MSR_PLATFORM_INFO >>> 8) &&& 0xff) % 2 ^ 8
      else ((rdmsr64 hw H.MSR_PLATFORM_INFO >>> 8) &&& 0xff) % 2 ^ 8 := rfl
  rw [h, platform_info_field, flex_ratio_field]
  unfold resolvedMultiplier
  have hf := bitfield32_15_8_lt (rdmsr64 hw H.MSR_FLEX_RATIO)
  by_cases hbit : bitfield32 (rdmsr64 hw H.MSR_FLEX_RATIO) 16 16 = 1
  · rw [if_pos ((flex_enable_bit _).mpr hbit), if_pos hbit]
    split
    · rw [Nat.mod_eq_of_lt hf, Nat.min_eq_right (by omega)]
    · rw [Nat.min_eq_left (by omega)]
  · rw [if_neg (fun h' => hbit ((flex_enable_bit _).mp h')), if_neg hbit]

theorem qpiSpeedOnBus_lt (H : Headers) (hw : Hardware) (bus f : Nat) :
    qpiSpeedOnBus H hw bus f < 2 ^ 32 := by
  unfold qpiSpeedOnBus
  simp only
  split
  · exact lt_of_le_of_lt (Nat.div_mul_le_self _ _) (Nat.mod_lt _ (by norm_num))
  · exact Nat.mod_lt _ (by norm_num)

theorem getQPISpeed_lt (H : Headers) (hw : Hardware) (f : Nat) :
    getQPISpeed H hw f < 2 ^ 32 := by
  unfold getQPISpeed
  simp only
  split
  · exact qpiSpeedOnBus_lt H hw _ f
  · norm_num

/-- The local variables after the modern path, started from the initial ones. -/
theorem modernPath_locals (H : Headers) (hw : Hardware) (hb tsc : Nat) (r : CPUInfo) :
    (modernPath H hw hb tsc r initLocals).2.fsbFrequency =
        (if resolvedMultiplier H hw ≠ 0 then tsc / resolvedMultiplier H hw else 0) ∧
    (modernPath H hw hb tsc r initLocals).2.cpuFrequency = tsc ∧
    (modernPath H hw hb tsc r initLocals).2.qpiSpeed =
        getQPISpeed H hw (if resolvedMultiplier H hw ≠ 0 then tsc / resolvedMultiplier H hw
          else 0) ∧
    (modernPath H hw hb tsc r initLocals).2.maxcoef = 0 ∧
    (modernPath H hw hb tsc r initLocals).2.maxdiv = 0 ∧
    (modernPath H hw hb tsc r initLocals).2.currdiv = 0 := by
  have hfsb : (modernPath H hw hb tsc r initLocals).2.fsbFrequency =
      (if resolvedMultiplier H hw ≠ 0 then tsc / resolvedMultiplier H hw else 0) := by
    rw [modernPath_fsb, modernPath_currcoef]
    rfl
  have hq : (modernPath H hw hb tsc r initLocals).2.qpiSpeed =
      getQPISpeed H hw (modernPath H hw hb tsc r initLocals).2.fsbFrequency % 2 ^ 32 := rfl
  refine ⟨hfsb, rfl, ?_, rfl, rfl, rfl⟩
  rw [hq, hfsb]
  exact Nat.mod_eq_of_lt (getQPISpeed_lt H hw _)

/-- The values stored on the modern path when the resolved multiplier and the
quotient of the tick rate by it are not zero. -/
theorem initCPUStruct_modern_values (H : Headers) (hw : Hardware) (r : CPUInfo)
    (hi : intelModelTest H (initCPUStruct H hw r))
    (hb : hiBitOf H (initCPUStruct H hw r).Model ≠ 0)
    (hm : resolvedMultiplier H hw ≠ 0)
    (hq : getTSCFrequency hw / resolvedMultiplier H hw ≠ 0) :
    (initCPUStruct H hw r).FSBFrequency = getTSCFrequency hw / resolvedMultiplier H hw ∧
    (initCPUStruct H hw r).CPUFrequency = getTSCFrequency hw ∧
    (initCPUStruct H hw r).CurrCoef = resolvedMultiplier H hw ∧
    (initCPUStruct H hw r).QPISpeed =
      getQPISpeed H hw (getTSCFrequency hw / resolvedMultiplier H hw) := by
  rcases initCPUStruct_cases H hw r with ⟨hn, -⟩ | ⟨-, -, he⟩ | ⟨-, hb2, -⟩
  · exact absurd hi hn
  · obtain ⟨hfsb, hcpu, hqpi, -, -, -⟩ := modernPath_locals H hw
      (hiBitOf H (initCPUStruct H hw r).Model) (getTSCFrequency hw)
      { preResolve H hw r with Type_ := 0x301 }
    rw [if_pos hm] at hfsb hqpi
    have hF : (initCPUStruct H hw r).FSBFrequency =
        getTSCFrequency hw / resolvedMultiplier H hw := by
      conv_lhs => rw [he]
      rw [finishCPUStruct_FSB, hfsb, if_neg hq]
    have hC : (initCPUStruct H hw r).CPUFrequency = getTSCFrequency hw := by
      conv_lhs => rw [he]
      rw [finishCPUStruct_CPU, hfsb, if_neg hq, hcpu]
    have hM : (initCPUStruct H hw r).CurrCoef = resolvedMultiplier H hw := by
      conv_lhs => rw [he]
      exact modernPath_currcoef H hw (hiBitOf H (initCPUStruct H hw r).Model)
        (getTSCFrequency hw) { preResolve H hw r with Type_ := 0x301 } initLocals
    have hQ : (initCPUStruct H hw r).QPISpeed =
        getQPISpeed H hw (getTSCFrequency hw / resolvedMultiplier H hw) := by
      conv_lhs => rw [he]
      exact hqpi
    exact ⟨hF, hC, hM, hQ⟩
  · exact absurd hb2 hb

/-! ## Claims on the modern path -/

/-- C14: on the modern path, with `m` the resolved multiplier (bits 8 to 15 of
the platform-info register, lowered to bits 8 to 15 of the flex-ratio register
when its bit 16 is set) and `t` the tick rate, whenever `m` and `t / m` are not
zero the record holds bus frequency `t / m`, CPU frequency `t`, current
multiplier `m` and link speed `getQPISpeed (t / m)`; for `t = 133333333` and
`m = 20` the bus frequency is 6666666. -/
theorem initCPUStruct_modern_frequencies (H : Headers) (hw : Hardware) (r : CPUInfo)
    (hi : intelModelTest H (initCPUStruct H hw r))
    (hb : hiBitOf H (initCPUStruct H hw r).Model ≠ 0)
    (hm : resolvedMultiplier H hw ≠ 0)
    (hq : getTSCFrequency hw / resolvedMultiplier H hw ≠ 0) :
    (initCPUStruct H hw r).FSBFrequency = getTSCFrequency hw / resolvedMultiplier H hw ∧
    (initCPUStruct H hw r).CPUFrequency = getTSCFrequency hw ∧
    (initCPUStruct H hw r).CurrCoef = resolvedMultiplier H hw ∧
    (initCPUStruct H hw r).QPISpeed =
      getQPISpeed H hw (getTSCFrequency hw / resolvedMultiplier H hw) ∧
    (getTSCFrequency hw = 133333333 → resolvedMultiplier H hw = 20 →
      (initCPUStruct H hw r).FSBFrequency = 6666666) := by
  obtain ⟨hF, hC, hM, hQ⟩ := initCPUStruct_modern_values H hw r hi hb hm hq
  refine ⟨hF, hC, hM, hQ, fun ht hm20 => ?_⟩
  rw [hF, ht, hm20]

/-- C14 at a Westmere-class machine with tick rate 133333333 and multiplier 20:
bus frequency 6666666, CPU frequency 133333333, link speed 200. -/
theorem initCPUStruct_modern_frequencies_witness :
    resolvedMultiplier stdHeaders (westmereMachine "Intel(R) Xeon(R) CPU") = 20 ∧
    getTSCFrequency (westmereMachine "Intel(R) Xeon(R) CPU") = 133333333 ∧
    (initCPUStruct stdHeaders (westmereMachine "Intel(R) Xeon(R) CPU") zeroCPUInfo).FSBFrequency
      = 6666666 ∧
    (initCPUStruct stdHeaders (westmereMachine "Intel(R) Xeon(R) CPU") zeroCPUInfo).QPISpeed
      = 200 :=
  ⟨by decide, by decide,
    (initCPUStruct_modern_frequencies stdHeaders (westmereMachine "Intel(R) Xeon(R) CPU")
      zeroCPUInfo (by decide) (by decide) (by decide) (by decide)).2.2.2.2 (by decide)
      (by decide),
    (initCPUStruct_modern_frequencies stdHeaders (westmereMachine "Intel(R) Xeon(R) CPU")
      zeroCPUInfo (by decide) (by decide) (by decide) (by decide)).2.2.2.1.trans (by decide)⟩

/-! ## Lemmas on the legacy path -/

theorem and_mod_le (x m : Nat) : (x &&& m) % 2 ^ 8 ≤ m :=
  le_trans (Nat.mod_le _ _) Nat.and_le_right

/-- The local variables after the legacy path, started from the initial ones:
the multipliers are below 32, the half-step flags are 0 or 1, and the two
frequencies follow the formulas of lines 431 to 452. -/
theorem legacyPath_locals (H : Headers) (hw : Hardware) (tsc : Nat) (r : CPUInfo) :
    (legacyPath H hw tsc r initLocals).2.maxcoef ≤ 31 ∧
    (legacyPath H hw tsc r initLocals).2.currcoef ≤ 31 ∧
    (legacyPath H hw tsc r initLocals).2.maxdiv ≤ 1 ∧
    (legacyPath H hw tsc r initLocals).2.currdiv ≤ 1 ∧
    (legacyPath H hw tsc r initLocals).2.fsbFrequency =
      (if (legacyPath H hw tsc r initLocals).2.maxcoef ≠ 0 then
        if (legacyPath H hw tsc r initLocals).2.maxdiv ≠ 0 then
          tsc * 2 % 2 ^ 64 / ((legacyPath H hw tsc r initLocals).2.maxcoef * 2 + 1)
        else tsc / (legacyPath H hw tsc r initLocals).2.maxcoef
      else 0) ∧
    (legacyPath H hw tsc r initLocals).2.cpuFrequency =
      (if (legacyPath H hw tsc r initLocals).2.maxcoef ≠ 0 then
        if (legacyPath H hw tsc r initLocals).2.currdiv ≠ 0 then
          (legacyPath H hw tsc r initLocals).2.fsbFrequency *
            ((legacyPath H hw tsc r initLocals).2.currcoef * 2 + 1) % 2 ^ 64 / 2
        else
          (legacyPath H hw tsc r initLocals).2.fsbFrequency *
            (legacyPath H hw tsc r initLocals).2.currcoef % 2 ^ 64
      else 0) := by
  have hc : (legacyPath H hw tsc r initLocals).2.currcoef ≤ 31 := and_mod_le _ 0x1f
  refine ⟨?_, hc, and_mod_le _ 0x01, and_mod_le _ 0x01, rfl, rfl⟩
  have hm : (legacyPath H hw tsc r initLocals).2.maxcoef =
      if (r.Family = 0x06 ∧ r.Model ≥ 0x0e) ∨ r.Family = 0x0f then
        ((rdmsr64 hw H.MSR_IA32_PERF_STATUS >>> 40) &&& 0x1f) % 2 ^ 8
      else (legacyPath H hw tsc r initLocals).2.currcoef := rfl
  rw [hm]
  split
  · exact and_mod_le _ 0x1f
  · exact hc

/-- The bus frequency of the legacy formulas times the maximum ratio is at most
twice the tick rate. -/
theorem legacy_fsb_mul_le (t M D : Nat) (hD : D ≤ 1) :
    (if D ≠ 0 then t * 2 / (M * 2 + 1) else t / M) * (M * 2 + D) ≤ t * 2 := by
  split
  · rename_i h
    have hD1 : D = 1 := by omega
    rw [hD1]
    exact Nat.div_mul_le_self _ _
  · rename_i h
    have hD0 : D = 0 := by omega
    rw [hD0, Nat.add_zero, ← Nat.mul_assoc]
    exact Nat.mul_le_mul_right 2 (Nat.div_mul_le_self _ _)

/-- With a current ratio of at most the maximum ratio the CPU frequency of the
legacy formulas is at most the tick rate. -/
theorem legacy_cpu_le (t M D c d : Nat) (hD : D ≤ 1) (hd : d ≤ 1)
    (hr : 2 * c + d ≤ 2 * M + D) :
    (if d ≠ 0 then (if D ≠ 0 then t * 2 / (M * 2 + 1) else t / M) * (c * 2 + 1) / 2
      else (if D ≠ 0 then t * 2 / (M * 2 + 1) else t / M) * c) ≤ t := by
  have h1 := legacy_fsb_mul_le t M D hD
  generalize (if D ≠ 0 then t * 2 / (M * 2 + 1) else t / M) = b at h1 ⊢
  split
  · rename_i h
    have h2 : b * (c * 2 + 1) ≤ b * (M * 2 + D) := Nat.mul_le_mul_left b (by omega)
    omega
  · rename_i h
    have h2 : b * (c * 2) ≤ b * (M * 2 + D) := Nat.mul_le_mul_left b (by omega)
    rw [← Nat.mul_assoc] at h2
    omega

theorem initCPUStruct_TSCFrequency (H : Headers) (hw : Hardware) (r : CPUInfo) :
    (initCPUStruct H hw r).TSCFrequency = getTSCFrequency hw := rfl

/-- On the legacy path the stored ratio bookkeeping and frequencies are those of
the local variables, and the frequencies follow the formulas of the
specification without any 64-bit wrap. -/
theorem initCPUStruct_legacy_locals (H : Headers) (hw : Hardware) (r : CPUInfo)
    (hi : intelModelTest H (initCPUStruct H hw r))
    (hb : hiBitOf H (initCPUStruct H hw r).Model = 0) :
    (initCPUStruct H hw r).MaxCoef ≤ 31 ∧
    (initCPUStruct H hw r).CurrCoef ≤ 31 ∧
    (initCPUStruct H hw r).MaxDiv ≤ 1 ∧
    (initCPUStruct H hw r).CurrDiv ≤ 1 ∧
    ((initCPUStruct H hw r).MaxCoef ≠ 0 →
      (legacyPath H hw (getTSCFrequency hw) { preResolve H hw r with Type_ := 0x301 }
          initLocals).2.fsbFrequency =
        legacyBusFrequency (getTSCFrequency hw) (initCPUStruct H hw r).MaxCoef
          (initCPUStruct H hw r).MaxDiv ∧
      (legacyPath H hw (getTSCFrequency hw) { preResolve H hw r with Type_ := 0x301 }
          initLocals).2.cpuFrequency =
        legacyCPUFrequency
          (legacyBusFrequency (getTSCFrequency hw) (initCPUStruct H hw r).MaxCoef
            (initCPUStruct H hw r).MaxDiv)
          (initCPUStruct H hw r).CurrCoef (initCPUStruct H hw r).CurrDiv) ∧
    ((initCPUStruct H hw r).MaxCoef = 0 →
      (legacyPath H hw (getTSCFrequency hw) { preResolve H hw r with Type_ := 0x301 }
          initLocals).2.fsbFrequency = 0) ∧
    initCPUStruct H hw r =
      finishCPUStruct (getTSCFrequency hw)
        (legacyPath H hw (getTSCFrequency hw) { preResolve H hw r with Type_ := 0x301 }
          initLocals).1
        (legacyPath H hw (getTSCFrequency hw) { preResolve H hw r with Type_ := 0x301 }
          initLocals).2 := by
  rcases initCPUStruct_cases H hw r with ⟨hn, -⟩ | ⟨-, hb2, -⟩ | ⟨-, -, he⟩
  · exact absurd hi hn
  · exact absurd hb hb2
  · obtain ⟨h1, h2, h3, h4, hf, hc⟩ := legacyPath_locals H hw (getTSCFrequency hw)
      { preResolve H hw r with Type_ := 0x301 }
    have eM : (initCPUStruct H hw r).MaxCoef =
        (legacyPath H hw (getTSCFrequency hw) { preResolve H hw r with Type_ := 0x301 }
          initLocals).2.maxcoef := by rw [he]; rfl
    have eC : (initCPUStruct H hw r).CurrCoef =
        (legacyPath H hw (getTSCFrequency hw) { preResolve H hw r with Type_ := 0x301 }
          initLocals).2.currcoef := by rw [he]; rfl
    have eD : (initCPUStruct H hw r).MaxDiv =
        (legacyPath H hw (getTSCFrequency hw) { preResolve H hw r with Type_ := 0x301 }
          initLocals).2.maxdiv := by rw [he]; rfl
    have ed : (initCPUStruct H hw r).CurrDiv =
        (legacyPath H hw (getTSCFrequency hw) { preResolve H hw r with Type_ := 0x301 }
          initLocals).2.currdiv := by rw [he]; rfl
    rw [eM, eC, eD, ed]
    refine ⟨h1, h2, h3, h4, fun hM => ?_, fun hM => ?_, he⟩
    · have ht := getTSCFrequency_le hw
      have hfsb : (legacyPath H hw (getTSCFrequency hw)
          { preResolve H hw r with Type_ := 0x301 } initLocals).2.fsbFrequency =
          legacyBusFrequency (getTSCFrequency hw)
            (legacyPath H hw (getTSCFrequency hw) { preResolve H hw r with Type_ := 0x301 }
              initLocals).2.maxcoef
            (legacyPath H hw (getTSCFrequency hw) { preResolve H hw r with Type_ := 0x301 }
              initLocals).2.maxdiv := by
        rw [hf, if_pos hM, Nat.mod_eq_of_lt (by omega)]
        unfold legacyBusFrequency
        rw [Nat.mul_comm 2 (getTSCFrequency hw), Nat.mul_comm 2 _]
      refine ⟨hfsb, ?_⟩
      rw [hc, if_pos hM, hfsb]
      have hle : legacyBusFrequency (getTSCFrequency hw)
          (legacyPath H hw (getTSCFrequency hw) { preResolve H hw r with Type_ := 0x301 }
            initLocals).2.maxcoef
          (legacyPath H hw (getTSCFrequency hw) { preResolve H hw r with Type_ := 0x301 }
            initLocals).2.maxdiv ≤ 2 * getTSCFrequency hw := by
        unfold legacyBusFrequency
        split
        · exact Nat.div_le_self _ _
        · exact le_trans (Nat.div_le_self _ _) (by omega)
      generalize legacyBusFrequency (getTSCFrequency hw)
          (legacyPath H hw (getTSCFrequency hw) { preResolve H hw r with Type_ := 0x301 }
            initLocals).2.maxcoef
          (legacyPath H hw (getTSCFrequency hw) { preResolve H hw r with Type_ := 0x301 }
            initLocals).2.maxdiv = b at hle ⊢
      generalize (legacyPath H hw (getTSCFrequency hw)
          { preResolve H hw r with Type_ := 0x301 } initLocals).2.currcoef = c at h2 ⊢
      have hb1 : b * (c * 2 + 1) ≤ 286331153066 * 63 :=
        Nat.mul_le_mul (by omega) (by omega)
      have hb2 : b * c ≤ 286331153066 * 31 := Nat.mul_le_mul (by omega) h2
      unfold legacyCPUFrequency
      rw [Nat.mod_eq_of_lt (lt_of_le_of_lt hb1 (by norm_num)),
        Nat.mod_eq_of_lt (lt_of_le_of_lt hb2 (by norm_num)), Nat.mul_comm 2 c]
    · rw [hf, if_neg (not_not.mpr hM)]

/-! ## Claims on the legacy path and on the frequency bound -/

/-- C15: on the legacy path, with tick rate `t`, maximum multiplier `M` not zero
with half-step flag `D` and current multiplier `c` with half-step flag `d`, the
computed bus frequency is `2 * t / (2 * M + 1)` when `D` is set and `t / M`
otherwise; when that bus frequency `b` is not zero, the stored bus frequency is
`b` and the stored CPU frequency is `b * (2 * c + 1) / 2` when `d` is set and
`b * c` otherwise. -/
theorem initCPUStruct_legacy_frequencies (H : Headers) (hw : Hardware) (r : CPUInfo)
    (hi : intelModelTest H (initCPUStruct H hw r))
    (hb : hiBitOf H (initCPUStruct H hw r).Model = 0)
    (hM : (initCPUStruct H hw r).MaxCoef ≠ 0) :
    (legacyPath H hw (getTSCFrequency hw) { preResolve H hw r with Type_ := 0x301 }
        initLocals).2.fsbFrequency =
      legacyBusFrequency (getTSCFrequency hw) (initCPUStruct H hw r).MaxCoef
        (initCPUStruct H hw r).MaxDiv ∧
    (legacyBusFrequency (getTSCFrequency hw) (initCPUStruct H hw r).MaxCoef
        (initCPUStruct H hw r).MaxDiv ≠ 0 →
      (initCPUStruct H hw r).FSBFrequency =
        legacyBusFrequency (getTSCFrequency hw) (initCPUStruct H hw r).MaxCoef
          (initCPUStruct H hw r).MaxDiv ∧
      (initCPUStruct H hw r).CPUFrequency =
        legacyCPUFrequency
          (legacyBusFrequency (getTSCFrequency hw) (initCPUStruct H hw r).MaxCoef
            (initCPUStruct H hw r).MaxDiv)
          (initCPUStruct H hw r).CurrCoef (initCPUStruct H hw r).CurrDiv) := by
  obtain ⟨-, -, -, -, hl, -, he⟩ := initCPUStruct_legacy_locals H hw r hi hb
  obtain ⟨hfsb, hcpu⟩ := hl hM
  refine ⟨hfsb, fun hne => ⟨?_, ?_⟩⟩
  · conv_lhs => rw [he]
    rw [finishCPUStruct_FSB, hfsb, if_neg hne]
  · conv_lhs => rw [he]
    rw [finishCPUStruct_CPU, hfsb, if_neg hne, hcpu]

/-- C15 at a Core 2 class machine with tick rate 133333333, maximum and current
multiplier 9 with both half-step flags set: bus frequency 14035087 and CPU
frequency 133333326. -/
theorem initCPUStruct_legacy_frequencies_witness :
    (initCPUStruct stdHeaders (core2Machine 0x490000004900) zeroCPUInfo).MaxCoef = 9 ∧
    (initCPUStruct stdHeaders (core2Machine 0x490000004900) zeroCPUInfo).MaxDiv = 1 ∧
    (initCPUStruct stdHeaders (core2Machine 0x490000004900) zeroCPUInfo).FSBFrequency
      = 14035087 ∧
    (initCPUStruct stdHeaders (core2Machine 0x490000004900) zeroCPUInfo).CPUFrequency
      = 133333326 :=
  ⟨by decide, by decide,
    ((initCPUStruct_legacy_frequencies stdHeaders (core2Machine 0x490000004900) zeroCPUInfo
      (by decide) (by decide) (by decide)).2 (by decide)).1.trans (by decide),
    ((initCPUStruct_legacy_frequencies stdHeaders (core2Machine 0x490000004900) zeroCPUInfo
      (by decide) (by decide) (by decide)).2 (by decide)).2.trans (by decide)⟩

theorem legacy_spec_cpu_le (t M D c d : Nat) (hD : D ≤ 1) (hd : d ≤ 1)
    (hr : 2 * c + d ≤ 2 * M + D) :
    legacyCPUFrequency (legacyBusFrequency t M D) c d ≤ t := by
  unfold legacyCPUFrequency legacyBusFrequency
  rw [Nat.mul_comm 2 t, Nat.mul_comm 2 M, Nat.mul_comm 2 c]
  exact legacy_cpu_le t M D c d hD hd hr

/-- C20: the stored CPU frequency does not exceed the stored tick rate whenever,
on the legacy path, the current ratio does not exceed the maximum ratio
(`2 * currcoef + currdiv ≤ 2 * maxcoef + maxdiv`); on the modern path, and
whenever the bus frequency computed by the dispatch is 0 so that the default is
taken, the stored CPU frequency equals the stored tick rate. -/
theorem initCPUStruct_CPUFrequency_le (H : Headers) (hw : Hardware) (r : CPUInfo) :
    ((intelModelTest H (initCPUStruct H hw r) →
        hiBitOf H (initCPUStruct H hw r).Model = 0 →
        2 * (initCPUStruct H hw r).CurrCoef + (initCPUStruct H hw r).CurrDiv ≤
          2 * (initCPUStruct H hw r).MaxCoef + (initCPUStruct H hw r).MaxDiv) →
      (initCPUStruct H hw r).CPUFrequency ≤ (initCPUStruct H hw r).TSCFrequency) ∧
    (intelModelTest H (initCPUStruct H hw r) →
      hiBitOf H (initCPUStruct H hw r).Model ≠ 0 →
      (initCPUStruct H hw r).CPUFrequency = (initCPUStruct H hw r).TSCFrequency) ∧
    ((dispatchPath H hw (getTSCFrequency hw) { preResolve H hw r with Type_ := 0x301 }
        initLocals).2.fsbFrequency = 0 →
      (initCPUStruct H hw r).CPUFrequency = (initCPUStruct H hw r).TSCFrequency) := by
  have hmodern : intelModelTest H (initCPUStruct H hw r) →
      hiBitOf H (initCPUStruct H hw r).Model ≠ 0 →
      (initCPUStruct H hw r).CPUFrequency = (initCPUStruct H hw r).TSCFrequency := by
    intro hi hb
    rw [initCPUStruct_TSCFrequency]
    rcases initCPUStruct_cases H hw r with ⟨hn, -⟩ | ⟨-, -, he⟩ | ⟨-, hb2, -⟩
    · exact absurd hi hn
    · obtain ⟨-, hcpu, -⟩ := modernPath_locals H hw
        (hiBitOf H (initCPUStruct H hw r).Model) (getTSCFrequency hw)
        { preResolve H hw r with Type_ := 0x301 }
      conv_lhs => rw [he]
      rw [finishCPUStruct_CPU, hcpu, ite_self]
    · exact absurd hb2 hb
  refine ⟨fun hratio => ?_, hmodern, fun h0 => ?_⟩
  · rcases initCPUStruct_cases H hw r with ⟨-, he⟩ | ⟨hi, hb, -⟩ | ⟨hi, hb, -⟩
    · rw [initCPUStruct_TSCFrequency]
      conv_lhs => rw [he]
      exact Nat.le_refl _
    · exact Nat.le_of_eq (hmodern hi hb)
    · obtain ⟨-, -, hD, hd, hl, h0, he⟩ := initCPUStruct_legacy_locals H hw r hi hb
      have hr := hratio hi hb
      rw [initCPUStruct_TSCFrequency]
      by_cases hM : (initCPUStruct H hw r).MaxCoef = 0
      · conv_lhs => rw [he]
        rw [finishCPUStruct_CPU, h0 hM, if_pos rfl]
      · obtain ⟨hfsb, hcpu⟩ := hl hM
        have hle := legacy_spec_cpu_le (getTSCFrequency hw) (initCPUStruct H hw r).MaxCoef
          (initCPUStruct H hw r).MaxDiv (initCPUStruct H hw r).CurrCoef
          (initCPUStruct H hw r).CurrDiv hD hd hr
        conv_lhs => rw [he]
        rw [finishCPUStruct_CPU, hcpu]
        split
        · exact Nat.le_refl _
        · exact hle
  · rw [initCPUStruct_TSCFrequency]
    have he : initCPUStruct H hw r =
        finishCPUStruct (getTSCFrequency hw)
          (dispatchPath H hw (getTSCFrequency hw) { preResolve H hw r with Type_ := 0x301 }
            initLocals).1
          (dispatchPath H hw (getTSCFrequency hw) { preResolve H hw r with Type_ := 0x301 }
            initLocals).2 := rfl
    conv_lhs => rw [he]
    rw [finishCPUStruct_CPU, if_pos h0]

/-! ## Lemmas on C strings -/

theorem strstr_iff_occurs (hay needle : List Nat) :
    strstr hay needle = true ↔ needle <:+: hay := by
  induction hay with
  | nil => simp [strstr, List.isEmpty_iff]
  | cons c cs ih => simp [strstr, ih, List.infix_cons_iff]

theorem strstr_of_infix (a b needle : List Nat) (hab : a <:+: b)
    (h : strstr a needle = true) : strstr b needle = true :=
  (strstr_iff_occurs b needle).mpr (((strstr_iff_occurs a needle).mp h).trans hab)

theorem cstring_append_of_mem (a b : List Nat) (h : 0 ∈ a) :
    cstring (a ++ b) = cstring a := by
  unfold cstring
  induction a with
  | nil => exact absurd h (List.not_mem_nil 0)
  | cons x xs ih =>
    by_cases hx : x = 0
    · subst hx
      simp [List.takeWhile_cons]
    · have hx2 : (x != 0) = true := by simpa using hx
      have hmem : 0 ∈ xs := by
        rcases List.mem_cons.mp h with h0 | h0
        · exact absurd h0.symm hx
        · exact h0
      simp only [List.cons_append, List.takeWhile_cons, hx2, if_true]
      rw [ih hmem]

/-- When the 48 bytes of the three leaves hold a zero byte, the string at `s`
is the text they spell, whatever lies in `str[48]` and after it. -/
theorem trimmedBrand_terminated (hw : Hardware) (h : 0 ∈ brandBytes hw) :
    trimmedBrand hw = brandText hw := by
  unfold trimmedBrand brandText
  rw [cstring_append_of_mem _ _ h]

theorem strlcpy_fits (dst src : List Nat) (size : Nat) (h : src.length < size) :
    strlcpy dst src size = src := by
  unfold strlcpy
  rw [if_neg (by omega)]
  exact List.take_of_length_le (by omega)

theorem strncmpIsZero_self (a : List Nat) (n : Nat) : strncmpIsZero a a n = true := by
  induction n generalizing a with
  | zero => unfold strncmpIsZero; rfl
  | succ n ih =>
    unfold strncmpIsZero
    simp only [bne_self_eq_false, Bool.false_eq_true, if_false]
    split
    · rfl
    · exact ih a.tail

/-! ## Lemmas on the brand string and the mobile flag -/

theorem readBrandString_BrandString (H : Headers) (hw : Hardware) (x : CPUInfo) :
    (readBrandString H hw x).BrandString =
      if strncmpIsZero (strlcpy x.BrandString (trimmedBrand hw) H.sizeofBrandString)
          H.CPU_STRING_UNKNOWN (placeholderCmpLength H) then []
      else strlcpy x.BrandString (trimmedBrand hw) H.sizeofBrandString := rfl

theorem readBrandString_Mobile (H : Headers) (hw : Hardware) (x : CPUInfo) :
    (readBrandString H hw x).Mobile =
      if !(if strstr (firstChunk hw) (lit "Atom") || strstr (firstChunk hw) (lit "Mobile")
            then true else x.Mobile) &&
          strstr (strlcpy x.BrandString (trimmedBrand hw) H.sizeofBrandString) (lit " M ")
        then true
      else (if strstr (firstChunk hw) (lit "Atom") || strstr (firstChunk hw) (lit "Mobile")
            then true else x.Mobile) := rfl

/-- When the cached `eax` of `LEAF_80` is at least 0x80000004, the brand string
and the mobile flag of the record are those that lines 218 to 256 compute from
the prior record. -/
theorem initCPUStruct_brand_avail (H : Headers) (hw : Hardware) (r : CPUInfo)
    (h : ((initCPUStruct H hw r).ID H.LEAF_80).eax ≥ 0x80000004) :
    (initCPUStruct H hw r).BrandString =
      (if strncmpIsZero (strlcpy r.BrandString (trimmedBrand hw) H.sizeofBrandString)
          H.CPU_STRING_UNKNOWN (placeholderCmpLength H) then []
      else strlcpy r.BrandString (trimmedBrand hw) H.sizeofBrandString) ∧
    (initCPUStruct H hw r).Mobile =
      (if !(if strstr (firstChunk hw) (lit "Atom") || strstr (firstChunk hw) (lit "Mobile")
            then true else r.Mobile) &&
          strstr (strlcpy r.BrandString (trimmedBrand hw) H.sizeofBrandString) (lit " M ")
        then true
      else (if strstr (firstChunk hw) (lit "Atom") || strstr (firstChunk hw) (lit "Mobile")
            then true else r.Mobile)) := by
  obtain ⟨eID, -, -, -, -, -, -, -, eB, eM, -⟩ :=
    resolveFrequencies_frame H hw (preResolve H hw r)
  obtain ⟨bID, -⟩ := setBrandString_fields H hw (setIdentification H (cacheCPUIDData H hw r))
  have hID : (initCPUStruct H hw r).ID = (setIdentification H (cacheCPUIDData H hw r)).ID :=
    eID.trans bID
  rw [hID] at h
  have hs : setBrandString H hw (setIdentification H (cacheCPUIDData H hw r)) =
      readBrandString H hw (setIdentification H (cacheCPUIDData H hw r)) := by
    unfold setBrandString
    rw [if_pos h]
  have hB : (initCPUStruct H hw r).BrandString =
      (setBrandString H hw (setIdentification H (cacheCPUIDData H hw r))).BrandString := eB
  have hM : (initCPUStruct H hw r).Mobile =
      (setBrandString H hw (setIdentification H (cacheCPUIDData H hw r))).Mobile := eM
  rw [hB, hM, hs, readBrandString_BrandString, readBrandString_Mobile]
  exact ⟨rfl, rfl⟩

/-! ## Claims on the brand string and the mobile flag -/

/-- C13: when the brand-string leaves are available (cached `eax` of `LEAF_80` at
least 0x80000004), the 48 bytes of leaves 0x80000002 to 0x80000004 hold a zero
byte and spell, after the leading spaces, exactly `CPU_STRING_UNKNOWN`, and that
text fits the `BrandString` array, the brand string stored in the record is
empty, and so is not the placeholder text, whatever lies in memory after `reg`
and from `str[48]` on. -/
theorem initCPUStruct_placeholder_cleared (H : Headers) (hw : Hardware) (r : CPUInfo)
    (ha : ((initCPUStruct H hw r).ID H.LEAF_80).eax ≥ 0x80000004)
    (hz : 0 ∈ brandBytes hw)
    (hs : brandText hw = H.CPU_STRING_UNKNOWN)
    (hfit : H.CPU_STRING_UNKNOWN.length < H.sizeofBrandString) :
    (initCPUStruct H hw r).BrandString = [] ∧
    (H.CPU_STRING_UNKNOWN ≠ [] →
      (initCPUStruct H hw r).BrandString ≠ H.CPU_STRING_UNKNOWN) := by
  have hB := (initCPUStruct_brand_avail H hw r ha).1
  rw [trimmedBrand_terminated hw hz, hs, strlcpy_fits _ _ _ hfit, strncmpIsZero_self,
    if_pos rfl] at hB
  exact ⟨hB, fun hne heq => hne (heq.symm.trans hB)⟩

/-- C13 at a machine whose brand text is the placeholder after three spaces,
found with other bytes after `reg` and in `str[48]`: the stored brand string is
empty. -/
theorem initCPUStruct_placeholder_cleared_witness :
    0 ∈ brandBytes placeholderDirtyMachine ∧
    brandText placeholderDirtyMachine = lit "Unknown CPU Typ" ∧
    (initCPUStruct stdHeaders placeholderDirtyMachine zeroCPUInfo).BrandString = [] :=
  ⟨by decide, by decide,
    (initCPUStruct_placeholder_cleared stdHeaders placeholderDirtyMachine zeroCPUInfo
      (by decide) (by decide) (by decide) (by decide)).1⟩

/-- C16, the code at the failing input: on an Atom class machine whose brand text
is right justified the brand-string leaves are available and the assembled
brand string contains "Atom", but "Atom" starts at byte 18, `strstr` reads the
sixteen bytes of the first leaf and stops at the zero byte that follows `reg`,
and the mobile flag stays false. -/
theorem initCPUStruct_mobile_late_marker :
    ((initCPUStruct stdHeaders atomMachine zeroCPUInfo).ID stdHeaders.LEAF_80).eax
      ≥ 0x80000004 ∧
    strstr (trimmedBrand atomMachine) (lit "Atom") = true ∧
    strstr (firstChunk atomMachine) (lit "Atom") = false ∧
    (initCPUStruct stdHeaders atomMachine zeroCPUInfo).Mobile = false := by
  decide

/-- The markers that lines 222 to 247 do detect: when the brand-string leaves are
available, if the bytes read at `reg` (the sixteen bytes of leaf 0x80000002 and,
when none of them is zero, the memory after them) contain "Atom" or "Mobile",
or the assembled brand string (leading spaces trimmed) fits the `BrandString`
array and contains the token " M ", then the mobile flag of the record is true
after the run. -/
theorem initCPUStruct_mobile_detected (H : Headers) (hw : Hardware) (r : CPUInfo)
    (ha : ((initCPUStruct H hw r).ID H.LEAF_80).eax ≥ 0x80000004)
    (hm : strstr (firstChunk hw) (lit "Atom") = true ∨
      strstr (firstChunk hw) (lit "Mobile") = true ∨
      ((trimmedBrand hw).length < H.sizeofBrandString ∧
        strstr (trimmedBrand hw) (lit " M ") = true)) :
    (initCPUStruct H hw r).Mobile = true := by
  have hM := (initCPUStruct_brand_avail H hw r ha).2
  rw [hM]
  rcases hm with h | h | ⟨hfit, h⟩
  · simp [h]
  · simp [h]
  · rw [strlcpy_fits _ _ _ hfit, h]
    cases strstr (firstChunk hw) (lit "Atom") <;> cases strstr (firstChunk hw) (lit "Mobile") <;>
      cases r.Mobile <;> rfl

/-- The detection at an Atom class machine whose brand text starts at byte 0 and
at a machine whose brand text holds " M ". -/
theorem initCPUStruct_mobile_detected_example :
    (initCPUStruct stdHeaders atomLeftMachine zeroCPUInfo).Mobile = true ∧
    (initCPUStruct stdHeaders celeronMMachine zeroCPUInfo).Mobile = true :=
  ⟨initCPUStruct_mobile_detected stdHeaders atomLeftMachine zeroCPUInfo (by decide)
      (Or.inl (by decide)),
    initCPUStruct_mobile_detected stdHeaders celeronMMachine zeroCPUInfo (by decide)
      (Or.inr (Or.inr ⟨by decide, by decide⟩))⟩

/-! ## Lemmas on the type tag and the counts of the modern path -/

theorem brandCPUType_ne_baseline (brand : List Nat) :
    brandCPUType brand ≠ 0x301 ∧ brandCPUType brand ≠ 0x0501 := by
  unfold brandCPUType
  split_ifs <;> decide

theorem hiBitOf_erratum (H : Headers) (model : Nat) (h : erratumModel H model) :
    hiBitOf H model = 19 := by
  unfold erratumModel at h
  unfold hiBitOf
  rw [if_pos h]

theorem hiBitOf_fullRange (H : Headers) (model : Nat) (h : fullRangeModel H model)
    (hn : ¬ erratumModel H model) : hiBitOf H model = 31 := by
  unfold erratumModel at hn
  unfold fullRangeModel at h
  unfold hiBitOf
  rw [if_neg hn, if_pos h]

/-- On the modern path the record holds the type tag chosen from the brand
string and the counts decoded from the core/thread-count register. -/
theorem initCPUStruct_modern_record (H : Headers) (hw : Hardware) (r : CPUInfo)
    (hi : intelModelTest H (initCPUStruct H hw r))
    (hb : hiBitOf H (initCPUStruct H hw r).Model ≠ 0) :
    (initCPUStruct H hw r).Type_ = brandCPUType (initCPUStruct H hw r).BrandString ∧
    (initCPUStruct H hw r).NumCores =
      bitfield32 (rdmsr64 hw H.MSR_CORE_THREAD_COUNT)
        (hiBitOf H (initCPUStruct H hw r).Model) 16 ∧
    (initCPUStruct H hw r).NumThreads =
      bitfield32 (rdmsr64 hw H.MSR_CORE_THREAD_COUNT) 15 0 := by
  have eB : (initCPUStruct H hw r).BrandString = (preResolve H hw r).BrandString :=
    (resolveFrequencies_frame H hw (preResolve H hw r)).2.2.2.2.2.2.2.2.1
  rcases initCPUStruct_cases H hw r with ⟨hn, -⟩ | ⟨-, -, he⟩ | ⟨-, hb2, -⟩
  · exact absurd hi hn
  · refine ⟨?_, ?_, ?_⟩
    · rw [eB]
      have hT : (initCPUStruct H hw r).Type_ =
          if brandCPUType (preResolve H hw r).BrandString = 0x301 then
            (if (initCPUStruct H hw r).NumCores ≥ 4 then 0x0501
              else if (initCPUStruct H hw r).NumCores = 1 ∧
                (initCPUStruct H hw r).NumThreads = 1 then 0x0201
              else brandCPUType (preResolve H hw r).BrandString)
          else brandCPUType (preResolve H hw r).BrandString := by
        conv_lhs => rw [he]
        conv_rhs => rw [he]
        rfl
      rw [hT, if_neg (brandCPUType_ne_baseline _).1]
    · conv_lhs => rw [he]
      rfl
    · conv_lhs => rw [he]
      rfl
  · exact absurd hb2 hb

/-! ## Claims on the type tag -/

/-- C11, falsified as stated: on a Westmere-class machine (erratum-affected
model) with tick rate 133333333, multiplier 20 and a core/thread-count register
giving 4 cores and 4 threads, the bus frequency is 6666666 but the stored tag is
0x0701, the tag chosen from the brand string, not 0x0501. -/
theorem initCPUStruct_modern_tag_counterexample :
    intelModelTest stdHeaders
      (initCPUStruct stdHeaders (westmereCountMachine 0x00040004) zeroCPUInfo) ∧
    erratumModel stdHeaders
      (initCPUStruct stdHeaders (westmereCountMachine 0x00040004) zeroCPUInfo).Model ∧
    getTSCFrequency (westmereCountMachine 0x00040004) = 133333333 ∧
    resolvedMultiplier stdHeaders (westmereCountMachine 0x00040004) = 20 ∧
    (initCPUStruct stdHeaders (westmereCountMachine 0x00040004) zeroCPUInfo).NumCores = 4 ∧
    (initCPUStruct stdHeaders (westmereCountMachine 0x00040004) zeroCPUInfo).NumThreads = 4 ∧
    (initCPUStruct stdHeaders (westmereCountMachine 0x00040004) zeroCPUInfo).FSBFrequency
      = 6666666 ∧
    (initCPUStruct stdHeaders (westmereCountMachine 0x00040004) zeroCPUInfo).Type_ = 0x0701 ∧
    (initCPUStruct stdHeaders (westmereCountMachine 0x00040004) zeroCPUInfo).Type_ ≠ 0x0501 := by
  decide

/-- C11, amended: for every resolution of an Intel processor whose model is in
the erratum-affected list, with tick rate 133333333, multiplier resolved to 20
and a core/thread-count register giving core count 4 and thread count 4, the
record holds these counts and the bus frequency 6666666, and the stored tag is
the one chosen from the brand string (0x307, 0x601, 0x901, else 0x0701), never
the quad-core designation 0x0501. -/
theorem initCPUStruct_modern_tag (H : Headers) (hw : Hardware) (r : CPUInfo)
    (hi : intelModelTest H (initCPUStruct H hw r))
    (hm : erratumModel H (initCPUStruct H hw r).Model)
    (ht : getTSCFrequency hw = 133333333)
    (hmu : resolvedMultiplier H hw = 20)
    (hc : bitfield32 (rdmsr64 hw H.MSR_CORE_THREAD_COUNT) 19 16 = 4)
    (hth : bitfield32 (rdmsr64 hw H.MSR_CORE_THREAD_COUNT) 15 0 = 4) :
    (initCPUStruct H hw r).Type_ = brandCPUType (initCPUStruct H hw r).BrandString ∧
    (initCPUStruct H hw r).Type_ ≠ 0x0501 ∧
    (initCPUStruct H hw r).NumCores = 4 ∧
    (initCPUStruct H hw r).NumThreads = 4 ∧
    (initCPUStruct H hw r).FSBFrequency = 6666666 := by
  have h19 := hiBitOf_erratum H _ hm
  have hb : hiBitOf H (initCPUStruct H hw r).Model ≠ 0 := by rw [h19]; decide
  obtain ⟨hT, hC, hTh⟩ := initCPUStruct_modern_record H hw r hi hb
  obtain ⟨hF, -⟩ := initCPUStruct_modern_values H hw r hi hb (by rw [hmu]; decide)
    (by rw [ht, hmu]; decide)
  rw [h19, hc] at hC
  rw [hth] at hTh
  rw [ht, hmu] at hF
  refine ⟨hT, ?_, hC, hTh, hF⟩
  rw [hT]
  exact (brandCPUType_ne_baseline _).2

/-- C11 amended, at a Westmere-class machine with 4 cores and 4 threads: the tag
is 0x0701. -/
theorem initCPUStruct_modern_tag_witness :
    (initCPUStruct stdHeaders (westmereCountMachine 0x00040004) zeroCPUInfo).Type_ = 0x0701 ∧
    (initCPUStruct stdHeaders (westmereCountMachine 0x00040004) zeroCPUInfo).FSBFrequency
      = 6666666 :=
  ⟨(initCPUStruct_modern_tag stdHeaders (westmereCountMachine 0x00040004) zeroCPUInfo
      (by decide) (by decide) (by decide) (by decide) (by decide) (by decide)).1.trans
      (by decide),
    (initCPUStruct_modern_tag stdHeaders (westmereCountMachine 0x00040004) zeroCPUInfo
      (by decide) (by decide) (by decide) (by decide) (by decide) (by decide)).2.2.2.2⟩

/-- C12, falsified as stated, at two machines on which the brand-string leaves
are available, the prior mobile flag is clear and the brand string contains
"Core(TM) i5" and none of "Atom", "Mobile", " M ", "Core(TM) i7-2".  On an Ivy
Bridge class machine (Intel, model in neither group of `case` labels) the mobile
flag ends false but the stored tag is 0x0501, not 0x601.  On a Westmere-class
machine whose first sixteen brand bytes start with "om" and end with "At", found
with `str` right after `reg`, the search at `reg` runs into the copy of `reg`,
reads "Atom", and the mobile flag ends true. -/
theorem initCPUStruct_i5_tag_counterexample :
    ((initCPUStruct stdHeaders ivyBridgeMachine zeroCPUInfo).Vendor
        = stdHeaders.CPU_VENDOR_INTEL ∧
      ((initCPUStruct stdHeaders ivyBridgeMachine zeroCPUInfo).ID stdHeaders.LEAF_80).eax
        ≥ 0x80000004 ∧
      zeroCPUInfo.Mobile = false ∧
      strstr (trimmedBrand ivyBridgeMachine) (lit "Core(TM) i5") = true ∧
      strstr (trimmedBrand ivyBridgeMachine) (lit "Atom") = false ∧
      strstr (trimmedBrand ivyBridgeMachine) (lit "Mobile") = false ∧
      strstr (trimmedBrand ivyBridgeMachine) (lit " M ") = false ∧
      strstr (trimmedBrand ivyBridgeMachine) (lit "Core(TM) i7-2") = false ∧
      (initCPUStruct stdHeaders ivyBridgeMachine zeroCPUInfo).Mobile = false ∧
      (initCPUStruct stdHeaders ivyBridgeMachine zeroCPUInfo).Type_ = 0x0501) ∧
    ((initCPUStruct stdHeaders westmereWrapMachine zeroCPUInfo).Vendor
        = stdHeaders.CPU_VENDOR_INTEL ∧
      ((initCPUStruct stdHeaders westmereWrapMachine zeroCPUInfo).ID stdHeaders.LEAF_80).eax
        ≥ 0x80000004 ∧
      zeroCPUInfo.Mobile = false ∧
      0 ∈ brandBytes westmereWrapMachine ∧
      strstr (trimmedBrand westmereWrapMachine) (lit "Core(TM) i5") = true ∧
      strstr (trimmedBrand westmereWrapMachine) (lit "Atom") = false ∧
      strstr (trimmedBrand westmereWrapMachine) (lit "Mobile") = false ∧
      strstr (trimmedBrand westmereWrapMachine) (lit " M ") = false ∧
      strstr (trimmedBrand westmereWrapMachine) (lit "Core(TM) i7-2") = false ∧
      strstr (firstChunk westmereWrapMachine) (lit "Atom") = true ∧
      (initCPUStruct stdHeaders westmereWrapMachine zeroCPUInfo).Mobile = true) := by
  decide

/-- C12, amended: for every resolution of an Intel processor on the modern path
(family and model test passed, model in one of the two groups of `case` labels)
in which the brand-string leaves are available, the prior mobile flag is clear,
the 48 bytes of the three leaves hold a zero byte, and the brand string they
spell fits the `BrandString` array, does not compare equal to the placeholder,
contains "Core(TM) i5" and none of "Atom", "Mobile", " M ", "Core(TM) i7-2", and
in which the bytes read at `reg` by the search of line 222 (the sixteen bytes
of leaf 0x80000002 and, when none of them is zero, the memory after them up to
the first zero byte) contain neither "Atom" nor "Mobile", the record ends with
mobile flag false and tag 0x601. -/
theorem initCPUStruct_i5_tag (H : Headers) (hw : Hardware) (r : CPUInfo)
    (hi : intelModelTest H (initCPUStruct H hw r))
    (hb : hiBitOf H (initCPUStruct H hw r).Model ≠ 0)
    (ha : ((initCPUStruct H hw r).ID H.LEAF_80).eax ≥ 0x80000004)
    (hmob : r.Mobile = false)
    (hz : 0 ∈ brandBytes hw)
    (hfit : (brandText hw).length < H.sizeofBrandString)
    (hnp : strncmpIsZero (brandText hw) H.CPU_STRING_UNKNOWN (placeholderCmpLength H) = false)
    (h5 : strstr (brandText hw) (lit "Core(TM) i5") = true)
    (hA : strstr (brandText hw) (lit "Atom") = false ∧
      strstr (firstChunk hw) (lit "Atom") = false)
    (hMo : strstr (brandText hw) (lit "Mobile") = false ∧
      strstr (firstChunk hw) (lit "Mobile") = false)
    (hM : strstr (brandText hw) (lit " M ") = false)
    (h72 : strstr (brandText hw) (lit "Core(TM) i7-2") = false) :
    (initCPUStruct H hw r).Mobile = false ∧ (initCPUStruct H hw r).Type_ = 0x601 := by
  obtain ⟨hB, hMob⟩ := initCPUStruct_brand_avail H hw r ha
  rw [trimmedBrand_terminated hw hz, strlcpy_fits _ _ _ hfit, hnp, if_neg (by decide)] at hB
  rw [trimmedBrand_terminated hw hz, strlcpy_fits _ _ _ hfit, hA.2, hMo.2, hM, hmob] at hMob
  refine ⟨hMob.trans rfl, ?_⟩
  rw [(initCPUStruct_modern_record H hw r hi hb).1, hB]
  unfold brandCPUType
  rw [if_neg (by rw [h72]; decide), if_pos h5]

/-- C12 amended, at a Westmere-class machine with a Core i5 brand text, found
with `str` right after `reg` on a stack of zero bytes. -/
theorem initCPUStruct_i5_tag_witness :
    (initCPUStruct stdHeaders
      (firstCall (westmereMachine "Intel(R) Core(TM) i5 CPU 650 @ 3.20GHz"))
      zeroCPUInfo).Mobile = false ∧
    (initCPUStruct stdHeaders
      (firstCall (westmereMachine "Intel(R) Core(TM) i5 CPU 650 @ 3.20GHz"))
      zeroCPUInfo).Type_ = 0x601 :=
  initCPUStruct_i5_tag stdHeaders
    (firstCall (westmereMachine "Intel(R) Core(TM) i5 CPU 650 @ 3.20GHz"))
    zeroCPUInfo (by decide) (by decide) (by decide) (by decide) (by decide) (by decide)
    (by decide) (by decide) (by decide) (by decide) (by decide) (by decide)

/-! ## Claims on the core count and on the cache of extended leaf 1 -/

theorem bitfield32_19_16_le (x : Nat) : bitfield32 x 19 16 ≤ 15 :=
  Nat.le_of_lt_succ (Nat.mod_lt _ (by norm_num))

theorem bitfield32_19_16_congr (x y : Nat) (h : x % 2 ^ 20 = y % 2 ^ 20) :
    bitfield32 x 19 16 = bitfield32 y 19 16 := by
  unfold bitfield32
  simp only [Nat.reduceAdd, Nat.reduceSub, Nat.reducePow] at h ⊢
  omega

/-- C17: on the modern path, for a model of the erratum-affected group the stored
core count is bits 16 to 19 of the core/thread-count register, so it is at most
15 and two register values that agree on bits 0 to 19 give the same core count;
for a model of the other group (its labels being distinct from those of the
first) it is bits 16 to 31; in both cases the thread count is bits 0 to 15. -/
theorem initCPUStruct_core_count (H : Headers) (hw : Hardware) (r : CPUInfo)
    (hi : intelModelTest H (initCPUStruct H hw r)) :
    (erratumModel H (initCPUStruct H hw r).Model →
      (initCPUStruct H hw r).NumCores =
          bitfield32 (rdmsr64 hw H.MSR_CORE_THREAD_COUNT) 19 16 ∧
        (initCPUStruct H hw r).NumCores ≤ 15 ∧
        (initCPUStruct H hw r).NumThreads =
          bitfield32 (rdmsr64 hw H.MSR_CORE_THREAD_COUNT) 15 0 ∧
        ∀ (hw2 : Hardware) (r2 : CPUInfo),
          intelModelTest H (initCPUStruct H hw2 r2) →
          erratumModel H (initCPUStruct H hw2 r2).Model →
          rdmsr64 hw2 H.MSR_CORE_THREAD_COUNT % 2 ^ 20 =
            rdmsr64 hw H.MSR_CORE_THREAD_COUNT % 2 ^ 20 →
          (initCPUStruct H hw2 r2).NumCores = (initCPUStruct H hw r).NumCores) ∧
    (fullRangeModel H (initCPUStruct H hw r).Model →
      ¬ erratumModel H (initCPUStruct H hw r).Model →
      (initCPUStruct H hw r).NumCores =
          bitfield32 (rdmsr64 hw H.MSR_CORE_THREAD_COUNT) 31 16 ∧
        (initCPUStruct H hw r).NumThreads =
          bitfield32 (rdmsr64 hw H.MSR_CORE_THREAD_COUNT) 15 0) := by
  have key : ∀ (hw' : Hardware) (r' : CPUInfo),
      intelModelTest H (initCPUStruct H hw' r') →
      erratumModel H (initCPUStruct H hw' r').Model →
      (initCPUStruct H hw' r').NumCores =
          bitfield32 (rdmsr64 hw' H.MSR_CORE_THREAD_COUNT) 19 16 ∧
        (initCPUStruct H hw' r').NumThreads =
          bitfield32 (rdmsr64 hw' H.MSR_CORE_THREAD_COUNT) 15 0 := by
    intro hw' r' hi' hm'
    have h19 := hiBitOf_erratum H _ hm'
    obtain ⟨-, hC, hT⟩ := initCPUStruct_modern_record H hw' r' hi' (by rw [h19]; decide)
    rw [h19] at hC
    exact ⟨hC, hT⟩
  refine ⟨fun hm => ?_, fun hf hn => ?_⟩
  · obtain ⟨hC, hT⟩ := key hw r hi hm
    refine ⟨hC, ?_, hT, fun hw2 r2 hi2 hm2 heq => ?_⟩
    · rw [hC]
      exact bitfield32_19_16_le _
    · rw [(key hw2 r2 hi2 hm2).1, hC]
      exact bitfield32_19_16_congr _ _ heq
  · have h31 := hiBitOf_fullRange H _ hf hn
    obtain ⟨-, hC, hT⟩ := initCPUStruct_modern_record H hw r hi (by rw [h31]; decide)
    rw [h31] at hC
    exact ⟨hC, hT⟩

/-- C17 at a Westmere-class machine whose register holds 0xFFF40004 (core count
4, as for 0x00040004, thread count 4) and at a Nehalem-class machine whose
register holds 0x01000008 (core count 256, thread count 8). -/
theorem initCPUStruct_core_count_witness :
    ((initCPUStruct stdHeaders (westmereCountMachine 0xFFF40004) zeroCPUInfo).NumCores = 4 ∧
      (initCPUStruct stdHeaders (westmereCountMachine 0xFFF40004) zeroCPUInfo).NumThreads = 4 ∧
      (initCPUStruct stdHeaders (westmereCountMachine 0x00040004) zeroCPUInfo).NumCores =
        (initCPUStruct stdHeaders (westmereCountMachine 0xFFF40004) zeroCPUInfo).NumCores) ∧
    ((initCPUStruct stdHeaders (nehalemMachine 0x01000008) zeroCPUInfo).NumCores = 256 ∧
      (initCPUStruct stdHeaders (nehalemMachine 0x01000008) zeroCPUInfo).NumThreads = 8) :=
  ⟨(fun h => ⟨h.1.trans (by decide), h.2.2.1.trans (by decide),
      h.2.2.2 (westmereCountMachine 0x00040004) zeroCPUInfo (by decide) (by decide)
        (by decide)⟩)
      ((initCPUStruct_core_count stdHeaders (westmereCountMachine 0xFFF40004) zeroCPUInfo
        (by decide)).1 (by decide)),
    (fun h => ⟨h.1.trans (by decide), h.2.trans (by decide)⟩)
      ((initCPUStruct_core_count stdHeaders (nehalemMachine 0x01000008) zeroCPUInfo
        (by decide)).2 (by decide) (by decide))⟩

theorem initCPUStruct_ID (H : Headers) (hw : Hardware) (r : CPUInfo) :
    (initCPUStruct H hw r).ID = (cacheCPUIDData H hw r).ID := by
  obtain ⟨eID, -⟩ := resolveFrequencies_frame H hw (preResolve H hw r)
  obtain ⟨bID, -⟩ := setBrandString_fields H hw (setIdentification H (cacheCPUIDData H hw r))
  exact eID.trans bID

/-- The cache entry of extended leaf 1 after lines 165 to 175. -/
theorem cacheCPUIDData_LEAF_81 (H : Headers) (hw : Hardware) (r : CPUInfo) :
    ((do_cpuid hw 0x80000000).eax % 16 ≠ 0 →
      (cacheCPUIDData H hw r).ID H.LEAF_81 = do_cpuid hw 0x80000001) ∧
    ((do_cpuid hw 0x80000000).eax % 16 = 0 →
      H.LEAF_81 ≠ H.LEAF_0 → H.LEAF_81 ≠ H.LEAF_1 → H.LEAF_81 ≠ H.LEAF_2 →
      H.LEAF_81 ≠ H.LEAF_4 → H.LEAF_81 ≠ H.LEAF_80 →
      (cacheCPUIDData H hw r).ID H.LEAF_81 = r.ID H.LEAF_81) := by
  have hand : (do_cpuid hw 0x80000000).eax &&& 0x0000000f = (do_cpuid hw 0x80000000).eax % 16 :=
    Nat.and_pow_two_sub_one_eq_mod _ 4
  constructor
  · intro h
    simp only [cacheCPUIDData, getCachedCPUID, Function.update_same]
    rw [hand, if_pos (by omega), Function.update_same]
  · intro h h0 h1 h2 h4 h80
    simp only [cacheCPUIDData, getCachedCPUID, Function.update_same]
    rw [hand, if_neg (by omega), Function.update_noteq h80, Function.update_noteq h4,
      Function.update_noteq h2, Function.update_noteq h1, Function.update_noteq h0]

/-- Lines 170 to 175 as they are written: extended leaf 1 is read and cached when
the low four bits of `eax` of leaf 0x80000000 are not all zero; otherwise (the
index `LEAF_81` being distinct from the other five) the entry is left as it
was. -/
theorem initCPUStruct_ext_leaf (H : Headers) (hw : Hardware) (r : CPUInfo) :
    ((do_cpuid hw 0x80000000).eax % 16 ≠ 0 →
      (initCPUStruct H hw r).ID H.LEAF_81 = do_cpuid hw 0x80000001) ∧
    ((do_cpuid hw 0x80000000).eax % 16 = 0 →
      H.LEAF_81 ≠ H.LEAF_0 → H.LEAF_81 ≠ H.LEAF_1 → H.LEAF_81 ≠ H.LEAF_2 →
      H.LEAF_81 ≠ H.LEAF_4 → H.LEAF_81 ≠ H.LEAF_80 →
      (initCPUStruct H hw r).ID H.LEAF_81 = r.ID H.LEAF_81) := by
  rw [initCPUStruct_ID]
  exact cacheCPUIDData_LEAF_81 H hw r

/-- C18, the code at the failing inputs.  With `eax = 0x80000010` on leaf
0x80000000, which is at least 0x80000001, extended leaf 1 is not read: the
entry keeps the zeros of the prior record and the feature bits of the leaf do
not reach the feature mask.  With `eax = 0x00000001`, which is below 0x80000001,
the leaf is read and cached and its bits reach the feature mask. -/
theorem initCPUStruct_ext_leaf_guard :
    ((do_cpuid (extLeafMachine 0x80000010) 0x80000000).eax ≥ 0x80000001 ∧
      (initCPUStruct stdHeaders (extLeafMachine 0x80000010) zeroCPUInfo).ID stdHeaders.LEAF_81
        = zeroCPUInfo.ID stdHeaders.LEAF_81 ∧
      (initCPUStruct stdHeaders (extLeafMachine 0x80000010) zeroCPUInfo).ID stdHeaders.LEAF_81
        ≠ do_cpuid (extLeafMachine 0x80000010) 0x80000001 ∧
      (initCPUStruct stdHeaders (extLeafMachine 0x80000010) zeroCPUInfo).Features = 0) ∧
    (¬ (do_cpuid (extLeafMachine 0x00000001) 0x80000000).eax ≥ 0x80000001 ∧
      (initCPUStruct stdHeaders (extLeafMachine 0x00000001) zeroCPUInfo).ID stdHeaders.LEAF_81
        = do_cpuid (extLeafMachine 0x00000001) 0x80000001 ∧
      (initCPUStruct stdHeaders (extLeafMachine 0x00000001) zeroCPUInfo).ID stdHeaders.LEAF_81
        ≠ zeroCPUInfo.ID stdHeaders.LEAF_81 ∧
      (initCPUStruct stdHeaders (extLeafMachine 0x00000001) zeroCPUInfo).Features
        = 0x28100001) := by
  decide

/-- C20 at a Core 2 class machine whose current ratio equals its maximum ratio
(CPU frequency 133333326 for the tick rate 133333333), at a Westmere-class
machine (modern path) and at a machine of another vendor (default taken). -/
theorem initCPUStruct_CPUFrequency_le_witness :
    (initCPUStruct stdHeaders (core2Machine 0x490000004900) zeroCPUInfo).CPUFrequency ≤
      (initCPUStruct stdHeaders (core2Machine 0x490000004900) zeroCPUInfo).TSCFrequency ∧
    (initCPUStruct stdHeaders (westmereCountMachine 0x00040004) zeroCPUInfo).CPUFrequency =
      (initCPUStruct stdHeaders (westmereCountMachine 0x00040004) zeroCPUInfo).TSCFrequency ∧
    (initCPUStruct stdHeaders otherVendorMachine zeroCPUInfo).CPUFrequency =
      (initCPUStruct stdHeaders otherVendorMachine zeroCPUInfo).TSCFrequency :=
  ⟨(initCPUStruct_CPUFrequency_le stdHeaders (core2Machine 0x490000004900) zeroCPUInfo).1
      (fun _ _ => by decide),
    (initCPUStruct_CPUFrequency_le stdHeaders (westmereCountMachine 0x00040004)
      zeroCPUInfo).2.1 (by decide) (by decide),
    (initCPUStruct_CPUFrequency_le stdHeaders otherVendorMachine zeroCPUInfo).2.2
      (by decide)⟩

end RevoBoot
